import Mathlib

/-!
Verification of the embedded-fat FAT12/16/32 driver core against its
natural-language specification.

The Rust sources are embedded shallowly:

* machine integers (`u8`/`u16`/`u32`) become `Nat`; where the Rust release
  build wraps on overflow or underflow the embedding takes the value
  modulo `2^32` explicitly (`u32sub`, `% U32_MOD`);
* byte streams and 32-byte directory records become `List Nat`
  (each element a byte value), boot sectors become functions
  `Nat → Nat` from byte offset to byte value;
* fallible operations return `Except`;
* the device layer is specialised to the repository's list-backed data
  stream: an absolute seek followed by a bounded read that returns
  `min requested (length - address)` bytes, and `read_exact` that fails
  with `streamEndReached` when fewer bytes than requested remain.
-/

/-- 2^32, the modulus of the Rust `u32` arithmetic used throughout the driver. -/
def U32_MOD : Nat := 4294967296

/-- `u32` subtraction as performed by a Rust release build: wraps modulo 2^32.
(`a` and `b` are assumed to be `u32` values, i.e. below `U32_MOD`.) -/
def u32sub (a b : Nat) : Nat := (a + U32_MOD - b) % U32_MOD

theorem u32sub_eq_sub (a b : Nat) (hba : b ≤ a) (ha : a < U32_MOD) : u32sub a b = a - b := by
  unfold u32sub U32_MOD at *
  omega

/-- `utils::read_le_u16` on a boot sector viewed as a byte function. -/
def readLeU16 (b : Nat → Nat) (offset : Nat) : Nat :=
  b offset + 256 * b (offset + 1)

/-- `utils::read_le_u32` on a boot sector viewed as a byte function. -/
def readLeU32 (b : Nat → Nat) (offset : Nat) : Nat :=
  b offset + 256 * b (offset + 1) + 65536 * b (offset + 2) + 16777216 * b (offset + 3)

/-- `utils::read_le_u32(bytes, 0)` on a 4-byte buffer held as a list
(missing positions read as the buffer's zero initialisation). -/
def leU32OfBytes (bs : List Nat) : Nat :=
  bs.getD 0 0 + 256 * bs.getD 1 0 + 65536 * bs.getD 2 0 + 16777216 * bs.getD 3 0

/-- `allocation_table::kind::AllocationTableKind`. -/
inductive AllocationTableKind
  | fat12
  | fat16
  | fat32
deriving DecidableEq, Repr

/-- `AllocationTableKind::new`: classification of the data-cluster count. -/
def AllocationTableKind.new (dataClusterCount : Nat) : AllocationTableKind :=
  if dataClusterCount < 4085 then .fat12
  else if dataClusterCount < 65525 then .fat16
  else .fat32

/-- `AllocationTableKind::bad_sector_value`. -/
def AllocationTableKind.badSectorValue : AllocationTableKind → Nat
  | .fat12 => 0x00000FF7
  | .fat16 => 0x0000FFF7
  | .fat32 => 0x0FFF0FF7

/-- `AllocationTableKind::end_of_chain_value`. -/
def AllocationTableKind.endOfChainValue : AllocationTableKind → Nat
  | .fat12 => 0x00000FF8
  | .fat16 => 0x0000FFF8
  | .fat32 => 0x0FFFFFF8

/-- The per-kind entry bit count used by `AllocationTableKind::entry_mask`. -/
def AllocationTableKind.entryBitCount : AllocationTableKind → Nat
  | .fat12 => 12
  | .fat16 => 16
  | .fat32 => 28

/-- `AllocationTableKind::entry_mask`: the Rust `!(!0u32 << bit_count)`,
which equals `2 ^ bit_count - 1`. -/
def AllocationTableKind.entryMask (k : AllocationTableKind) : Nat :=
  2 ^ k.entryBitCount - 1

/-- `allocation_table::entry::AllocationTableEntry`
(`NextClusterNumber` carries the raw `u32` cluster number). -/
inductive AllocationTableEntry
  | free
  | reserved
  | nextClusterNumber (n : Nat)
  | endOfFile
  | badSector
deriving DecidableEq, Repr

/-- `AllocationTableEntry::new`: classify a raw (already masked) entry value. -/
def AllocationTableEntry.new (tableKind : AllocationTableKind) (entryValue : Nat) :
    AllocationTableEntry :=
  if entryValue = 0 then .free
  else if entryValue = 1 then .reserved
  else if entryValue < tableKind.badSectorValue then .nextClusterNumber entryValue
  else if entryValue = tableKind.badSectorValue then .badSector
  else .endOfFile

/-- `allocation_table::AllocationTableError`, specialised to the list-backed
stream (whose own error type is uninhabited, so only the short-read case
remains). -/
inductive AllocationTableError
  | streamEndReached
deriving DecidableEq, Repr

/-- `embedded_io::Read::read_exact` against the repository's list-backed data
stream after an absolute seek: succeeds exactly when `count` bytes exist at
`address`, otherwise reports the end of the stream. -/
def streamReadExact (data : List Nat) (address count : Nat) :
    Except AllocationTableError (List Nat) :=
  if address + count ≤ data.length then .ok ((data.drop address).take count)
  else .error .streamEndReached

/-- `allocation_table::AllocationTable`. -/
structure AllocationTable where
  kind : AllocationTableKind
  baseAddress : Nat

/-- `AllocationTable::resolve_entry_address` result type. -/
structure AllocationTableEntryOffset where
  address : Nat
  isNibbleOffset : Bool

/-- `AllocationTable::resolve_entry_address` (`u32` arithmetic, hence the
explicit modulus). -/
def AllocationTable.resolveEntryAddress (t : AllocationTable) (clusterNumber : Nat) :
    AllocationTableEntryOffset :=
  let addressOffset :=
    match t.kind with
    | .fat12 => (clusterNumber + clusterNumber / 2) % U32_MOD
    | .fat16 => clusterNumber * 2 % U32_MOD
    | .fat32 => clusterNumber * 4 % U32_MOD
  { address := (t.baseAddress + addressOffset) % U32_MOD
    isNibbleOffset := t.kind == .fat12 && clusterNumber % 2 == 1 }

/-- `AllocationTable::resolve_entry_value`. -/
def AllocationTable.resolveEntryValue (t : AllocationTable) (entryValueBytes : List Nat)
    (isNibbleOffset : Bool) : Nat :=
  let entryValue := leU32OfBytes entryValueBytes
  let entryValue := if isNibbleOffset then entryValue >>> 4 else entryValue
  Nat.land entryValue t.kind.entryMask

/-- `AllocationTable::read_entry` over the list-backed stream: seek to the
resolved address, read exactly 2 (Fat12/16) or 4 (Fat32) bytes into a
zero-initialised 4-byte buffer, then decode and classify. -/
def AllocationTable.readEntry (t : AllocationTable) (stream : List Nat) (clusterNumber : Nat) :
    Except AllocationTableError AllocationTableEntry :=
  let entryAddress := t.resolveEntryAddress clusterNumber
  match t.kind with
  | .fat12 | .fat16 => do
      let bytes ← streamReadExact stream entryAddress.address 2
      pure (AllocationTableEntry.new t.kind
        (t.resolveEntryValue (bytes ++ [0, 0]) entryAddress.isNibbleOffset))
  | .fat32 => do
      let bytes ← streamReadExact stream entryAddress.address 4
      pure (AllocationTableEntry.new t.kind
        (t.resolveEntryValue bytes entryAddress.isNibbleOffset))

theorem getD_of_lt (l : List Nat) (a : Nat) (h : a < l.length) : l.getD a 0 = l[a] := by
  simp [List.getD_eq_getElem?_getD, List.getElem?_eq_getElem, h]

theorem drop_take_two (l : List Nat) (a : Nat) (h : a + 2 ≤ l.length) :
    (l.drop a).take 2 = [l.getD a 0, l.getD (a + 1) 0] := by
  have h0 : a < l.length := by omega
  have h1 : a + 1 < l.length := by omega
  rw [getD_of_lt l a h0, getD_of_lt l (a + 1) h1,
    List.drop_eq_getElem_cons h0, List.drop_eq_getElem_cons h1]
  rfl

theorem drop_take_four (l : List Nat) (a : Nat) (h : a + 4 ≤ l.length) :
    (l.drop a).take 4 =
      [l.getD a 0, l.getD (a + 1) 0, l.getD (a + 2) 0, l.getD (a + 3) 0] := by
  have h0 : a < l.length := by omega
  have h1 : a + 1 < l.length := by omega
  have h2 : a + 2 < l.length := by omega
  have h3 : a + 3 < l.length := by omega
  rw [getD_of_lt l a h0, getD_of_lt l (a + 1) h1, getD_of_lt l (a + 2) h2,
    getD_of_lt l (a + 3) h3, List.drop_eq_getElem_cons h0, List.drop_eq_getElem_cons h1,
    List.drop_eq_getElem_cons h2, List.drop_eq_getElem_cons h3]
  rfl

theorem allocationTableEntry_new_eq_spec (k : AllocationTableKind) (v : Nat) :
    AllocationTableEntry.new k v =
      if v = 0 then .free
      else if v = 1 then .reserved
      else if 2 ≤ v ∧ v < k.badSectorValue then .nextClusterNumber v
      else if v = k.badSectorValue then .badSector
      else .endOfFile := by
  unfold AllocationTableEntry.new
  split_ifs <;> first | rfl | omega

/-- Specification side of claim C6: the entry address formula
(`base + cluster + cluster/2` for Fat12, `base + cluster*2` for Fat16,
`base + cluster*4` for Fat32), transcribed from the claim's wording. -/
def specAllocationTableEntryAddress (k : AllocationTableKind) (base c : Nat) : Nat :=
  base + (match k with
    | .fat12 => c + c / 2
    | .fat16 => c * 2
    | .fat32 => c * 4)

/-- Specification side of claim C6: 2 bytes are read for Fat12/16y, 4 for Fat32. -/
def specAllocationTableEntryWidth (k : AllocationTableKind) : Nat :=
  match k with
  | .fat32 => 4
  | _ => 2

/-- Specification side of claim C6: the little-endian decode of the bytes read
at the entry address. -/
def specAllocationTableRawValue (k : AllocationTableKind) (stream : List Nat) (addr : Nat) :
    Nat :=
  match k with
  | .fat32 =>
      stream.getD addr 0 + 256 * stream.getD (addr + 1) 0 + 65536 * stream.getD (addr + 2) 0 +
        16777216 * stream.getD (addr + 3) 0
  | _ => stream.getD addr 0 + 256 * stream.getD (addr + 1) 0

/-- Specification side of claim C6: right-shift by 4 exactly for an odd Fat12
cluster number, mask with `entry_mask`, then classify by the claim's rule
(0 ↦ Free, 1 ↦ Reserved, [2, bad) ↦ NextClusterNumber, = bad ↦ BadSector,
larger ↦ EndOfFile). -/
def specAllocationTableEntry (k : AllocationTableKind) (c raw : Nat) : AllocationTableEntry :=
  let v := Nat.land (if k = .fat12 ∧ c % 2 = 1 then raw >>> 4 else raw) k.entryMask
  if v = 0 then .free
  else if v = 1 then .reserved
  else if 2 ≤ v ∧ v < k.badSectorValue then .nextClusterNumber v
  else if v = k.badSectorValue then .badSector
  else .endOfFile

/-- C6: for every allocation-table kind and cluster number (without `u32`
overflow and with the table bytes present on the stream),
`AllocationTable::read_entry` seeks to the kind-specific address, reads 2
(Fat12/16) or 4 (Fat32) bytes, decodes them little-endian, right-shifts by 4
exactly when the kind is Fat12 and the cluster number is odd, masks with
`entry_mask`, and classifies 0 ↦ Free, 1 ↦ Reserved, a value in
[2, bad_sector_value) ↦ NextClusterNumber, bad_sector_value ↦ BadSector, any
larger value ↦ EndOfFile. -/
theorem allocationTable_readEntry_formula (k : AllocationTableKind) (base c : Nat)
    (stream : List Nat)
    (hof : specAllocationTableEntryAddress k base c < U32_MOD)
    (hlen : specAllocationTableEntryAddress k base c + specAllocationTableEntryWidth k ≤
      stream.length) :
    AllocationTable.readEntry ⟨k, base⟩ stream c =
      Except.ok (specAllocationTableEntry k c
        (specAllocationTableRawValue k stream (specAllocationTableEntryAddress k base c))) := by
  cases k <;>
    simp only [specAllocationTableEntryAddress, specAllocationTableEntryWidth] at hof hlen
  case fat12 =>
    have hin : (c + c / 2) % U32_MOD = c + c / 2 := Nat.mod_eq_of_lt (by omega)
    have hout : (base + (c + c / 2)) % U32_MOD = base + (c + c / 2) := Nat.mod_eq_of_lt hof
    unfold AllocationTable.readEntry AllocationTable.resolveEntryAddress
      AllocationTable.resolveEntryValue
    simp only [hin, hout]
    rw [streamReadExact, if_pos (by omega)]
    rw [drop_take_two stream (base + (c + c / 2)) (by omega)]
    by_cases hc : c % 2 = 1 <;>
      simp [hc, specAllocationTableEntry, specAllocationTableRawValue, specAllocationTableEntryAddress,
        allocationTableEntry_new_eq_spec, leU32OfBytes, Except.bind]
  case fat16 =>
    have hin : c * 2 % U32_MOD = c * 2 := Nat.mod_eq_of_lt (by omega)
    have hout : (base + c * 2) % U32_MOD = base + c * 2 := Nat.mod_eq_of_lt hof
    unfold AllocationTable.readEntry AllocationTable.resolveEntryAddress
      AllocationTable.resolveEntryValue
    simp only [hin, hout]
    rw [streamReadExact, if_pos (by omega)]
    rw [drop_take_two stream (base + c * 2) (by omega)]
    simp [specAllocationTableEntry, specAllocationTableRawValue, specAllocationTableEntryAddress,
      allocationTableEntry_new_eq_spec, leU32OfBytes, Except.bind]
  case fat32 =>
    have hin : c * 4 % U32_MOD = c * 4 := Nat.mod_eq_of_lt (by omega)
    have hout : (base + c * 4) % U32_MOD = base + c * 4 := Nat.mod_eq_of_lt hof
    unfold AllocationTable.readEntry AllocationTable.resolveEntryAddress
      AllocationTable.resolveEntryValue
    simp only [hin, hout]
    rw [streamReadExact, if_pos (by omega)]
    rw [drop_take_four stream (base + c * 4) (by omega)]
    simp [specAllocationTableEntry, specAllocationTableRawValue, specAllocationTableEntryAddress,
      allocationTableEntry_new_eq_spec, leU32OfBytes, Except.bind]

theorem allocationTable_readEntry_formula_witness :
    AllocationTable.readEntry ⟨AllocationTableKind.fat12, 0⟩ [18, 52, 86] 1 =
      Except.ok (AllocationTableEntry.nextClusterNumber 1379) := by
  rw [allocationTable_readEntry_formula AllocationTableKind.fat12 0 1 [18, 52, 86]
    (by decide) (by decide)]
  rfl

/-- `directory_entry::DIRECTORY_ENTRY_SIZE`. -/
def DIRECTORY_ENTRY_SIZE : Nat := 32

/-- `boot_sector::bios_parameter_block::BiosParameterBlockError`. -/
inductive BiosParameterBlockError
  | bytesPerSectorInvalid
  | sectorsPerClusterInvalid
  | reservedSectorCountInvalid
  | allocationTableCountInvalid
  | mediaTypeInvalid
  | totalSectorCountNotSet
  | sectorsPerAllocationTableNotSet
  | rootDirectoryEntryCountInvalid
  | totalSectorCount16BitInvalid
  | sectorsPerAllocationTable16BitInvalid
  | filesystemVersionUnsupported
  | rootDirectoryFileClusterNumberInvalid
  | fsInfoSectorNumberInvalid
  | allocationTableTooSmall
deriving DecidableEq, Repr

/-- `boot_sector::bios_parameter_block::BiosParameterBlock` (parsed form). -/
structure BiosParameterBlock where
  allocationTableKind : AllocationTableKind
  activeAllocationTableIndex : Nat
  allocationTableMirroringEnabled : Bool
  bytesPerSector : Nat
  sectorsPerCluster : Nat
  reservedSectorCount : Nat
  fsInfoSectorIndex : Option Nat
  allocationTableCount : Nat
  rootDirectoryEntryCount : Nat
  rootDirectoryFileClusterNumber : Option Nat
  lastClusterNumber : Nat
  sectorsPerAllocationTable : Nat
deriving DecidableEq, Repr

/-- The `ensure!` macro of `utils.rs`: early-return an error when the
condition fails. -/
def ensureBpb (cond : Prop) [Decidable cond] (e : BiosParameterBlockError) :
    Except BiosParameterBlockError Unit :=
  if cond then .ok () else .error e

/-- `BiosParameterBlock::from_boot_sector` (`boot_sector/bios_parameter_block.rs`),
over a boot sector viewed as a function from byte offset to byte value.
`u32` subtraction and the `u32` sum it subtracts wrap modulo 2^32 as in a
release build; all other intermediate values stay within their Rust types
for genuine byte inputs. The Rust resolves each 16-bit/32-bit field pair by
preferring the nonzero 16-bit field and failing when both are zero; the
resolved value and the failure condition are written out separately here.
`div_ceil` becomes ceiling division (its divisor, `bytes_per_sector`, is
already validated positive). -/
def BiosParameterBlock.fromBootSector (b : Nat → Nat) :
    Except BiosParameterBlockError BiosParameterBlock := do
  let bytesPerSector := readLeU16 b 11
  ensureBpb (bytesPerSector = 512 ∨ bytesPerSector = 1024 ∨ bytesPerSector = 2048 ∨
    bytesPerSector = 4096) .bytesPerSectorInvalid
  let sectorsPerCluster := b 13
  ensureBpb (sectorsPerCluster = 1 ∨ sectorsPerCluster = 2 ∨ sectorsPerCluster = 4 ∨
    sectorsPerCluster = 8 ∨ sectorsPerCluster = 16 ∨ sectorsPerCluster = 32 ∨
    sectorsPerCluster = 64 ∨ sectorsPerCluster = 128) .sectorsPerClusterInvalid
  let reservedSectorCount := readLeU16 b 14
  ensureBpb (reservedSectorCount ≠ 0) .reservedSectorCountInvalid
  let allocationTableCount := b 16
  ensureBpb (allocationTableCount ≠ 0) .allocationTableCountInvalid
  let rootDirectoryEntryCount := readLeU16 b 17
  let totalSectorCount16Bit := readLeU16 b 19
  ensureBpb (b 21 = 0xF0 ∨ (0xF8 ≤ b 21 ∧ b 21 ≤ 0xFF)) .mediaTypeInvalid
  let sectorsPerAllocationTable16Bit := readLeU16 b 22
  let totalSectorCount :=
    if totalSectorCount16Bit > 0 then totalSectorCount16Bit else readLeU32 b 32
  ensureBpb (totalSectorCount16Bit > 0 ∨ readLeU32 b 32 ≠ 0) .totalSectorCountNotSet
  let sectorsPerAllocationTable :=
    if sectorsPerAllocationTable16Bit > 0 then sectorsPerAllocationTable16Bit
    else readLeU32 b 36
  ensureBpb (sectorsPerAllocationTable16Bit > 0 ∨ readLeU32 b 36 ≠ 0)
    .sectorsPerAllocationTableNotSet
  let rootDirectorySectors :=
    (rootDirectoryEntryCount * DIRECTORY_ENTRY_SIZE) ⌈/⌉ bytesPerSector
  let dataSectorsCount := u32sub totalSectorCount
    ((reservedSectorCount + allocationTableCount * sectorsPerAllocationTable +
      rootDirectorySectors) % U32_MOD)
  let dataClusterCount := dataSectorsCount / sectorsPerCluster
  let allocationTableKind := AllocationTableKind.new dataClusterCount
  let (activeAllocationTableIndex, allocationTableMirroringEnabled,
      rootDirectoryFileClusterNumber, fsInfoSectorIndex) ←
    if allocationTableKind = AllocationTableKind.fat32 then do
      ensureBpb (rootDirectoryEntryCount = 0) .rootDirectoryEntryCountInvalid
      ensureBpb (totalSectorCount16Bit = 0) .totalSectorCount16BitInvalid
      ensureBpb (sectorsPerAllocationTable16Bit = 0) .sectorsPerAllocationTable16BitInvalid
      let extFlags := readLeU16 b 40
      ensureBpb (b 42 = 0 ∧ b 43 = 0) .filesystemVersionUnsupported
      ensureBpb (readLeU32 b 44 ≥ 2) .rootDirectoryFileClusterNumberInvalid
      ensureBpb (readLeU16 b 48 ≥ 1) .fsInfoSectorNumberInvalid
      pure (Nat.land extFlags 7, decide (Nat.land extFlags 128 > 0),
        some (readLeU32 b 44), some (readLeU16 b 48))
    else do
      ensureBpb (sectorsPerAllocationTable16Bit ≠ 0) .sectorsPerAllocationTable16BitInvalid
      ensureBpb (rootDirectoryEntryCount > 0) .rootDirectoryEntryCountInvalid
      pure (0, true, none, none)
  let allocationTableBytes := sectorsPerAllocationTable * bytesPerSector
  let allocationTableEntryCount :=
    match allocationTableKind with
    | .fat12 => allocationTableBytes * 3 / 2
    | .fat16 => allocationTableBytes / 2
    | .fat32 => allocationTableBytes / 4
  ensureBpb (allocationTableEntryCount ≥ dataClusterCount + 2) .allocationTableTooSmall
  pure {
    allocationTableKind := allocationTableKind
    bytesPerSector := bytesPerSector
    sectorsPerCluster := sectorsPerCluster
    reservedSectorCount := reservedSectorCount
    sectorsPerAllocationTable := sectorsPerAllocationTable
    allocationTableCount := allocationTableCount
    rootDirectoryEntryCount := rootDirectoryEntryCount
    rootDirectoryFileClusterNumber := rootDirectoryFileClusterNumber
    lastClusterNumber := (dataClusterCount + 1) % U32_MOD
    activeAllocationTableIndex := activeAllocationTableIndex
    allocationTableMirroringEnabled := allocationTableMirroringEnabled
    fsInfoSectorIndex := fsInfoSectorIndex }

/-- `BiosParameterBlock::fs_info_base_address`. -/
def BiosParameterBlock.fsInfoBaseAddress (bpb : BiosParameterBlock) : Option Nat :=
  bpb.fsInfoSectorIndex.map (fun i => i * bpb.bytesPerSector)

set_option maxHeartbeats 4000000 in
/-- C10: every successfully parsed non-FAT32 boot sector yields the fixed
defaults for the FAT32-only fields: active table index 0, mirroring enabled,
no root-directory file cluster, no FS-info base address. -/
theorem biosParameterBlock_nonFat32_defaults (b : Nat → Nat) (bpb : BiosParameterBlock)
    (h : BiosParameterBlock.fromBootSector b = Except.ok bpb)
    (hk : bpb.allocationTableKind = AllocationTableKind.fat12 ∨
      bpb.allocationTableKind = AllocationTableKind.fat16) :
    bpb.activeAllocationTableIndex = 0 ∧
    bpb.allocationTableMirroringEnabled = true ∧
    bpb.rootDirectoryFileClusterNumber = none ∧
    bpb.fsInfoBaseAddress = none := by
  unfold BiosParameterBlock.fromBootSector at h
  simp only [ensureBpb, bind, Except.bind, pure, Except.pure] at h
  repeat (any_goals (first | exact Except.noConfusion h | split at h))
  all_goals injection h with h2
  all_goals subst h2
  all_goals simp_all [BiosParameterBlock.fsInfoBaseAddress]

theorem readLeU16_lt (b : Nat → Nat) (o : Nat) (hb : ∀ i, b i < 256) :
    readLeU16 b o < 65536 := by
  have h0 := hb o
  have h1 := hb (o + 1)
  unfold readLeU16
  omega

theorem readLeU32_lt (b : Nat → Nat) (o : Nat) (hb : ∀ i, b i < 256) :
    readLeU32 b o < U32_MOD := by
  have h0 := hb o
  have h1 := hb (o + 1)
  have h2 := hb (o + 2)
  have h3 := hb (o + 3)
  unfold readLeU32 U32_MOD
  omega

set_option maxHeartbeats 4000000 in
theorem fromBootSector_ok_reserved (b : Nat → Nat) (bpb : BiosParameterBlock)
    (h : BiosParameterBlock.fromBootSector b = Except.ok bpb) : readLeU16 b 14 ≠ 0 := by
  unfold BiosParameterBlock.fromBootSector at h
  simp only [ensureBpb, bind, Except.bind, pure, Except.pure] at h
  repeat (any_goals (first | exact Except.noConfusion h | split at h))
  all_goals simp_all

/-- Specification side of claim C2: `total_sectors`, resolved by preferring
the nonzero 16-bit field. -/
def specResolvedTotalSectorCount (b : Nat → Nat) : Nat :=
  if readLeU16 b 19 > 0 then readLeU16 b 19 else readLeU32 b 32

/-- Specification side of claim C2: `sectors_per_table`, resolved by
preferring the nonzero 16-bit field. -/
def specResolvedSectorsPerAllocationTable (b : Nat → Nat) : Nat :=
  if readLeU16 b 22 > 0 then readLeU16 b 22 else readLeU32 b 36

/-- Specification side of claim C2:
`root_directory_sectors = ceil(root_dir_entry_count * 32 / bytes_per_sector)`. -/
def specRootDirectorySectors (b : Nat → Nat) : Nat :=
  (readLeU16 b 17 * 32) ⌈/⌉ readLeU16 b 11

/-- Specification side of claim C2: `data_sector_count = total_sectors -
(reserved_sector_count + table_count * sectors_per_table +
root_directory_sectors)`. -/
def specDataSectorCount (b : Nat → Nat) : Nat :=
  specResolvedTotalSectorCount b -
    (readLeU16 b 14 + b 16 * specResolvedSectorsPerAllocationTable b +
      specRootDirectorySectors b)

/-- Specification side of claim C2:
`data_cluster_count = data_sector_count / sectors_per_cluster`. -/
def specDataClusterCount (b : Nat → Nat) : Nat :=
  specDataSectorCount b / b 13

set_option maxHeartbeats 4000000 in
/-- C2: for every boot sector accepted by the parser (with genuine byte
values, and whose region sizes fit inside the total sector count, so that
the `u32` subtraction does not wrap), the allocation-table kind reported by
the parsed block is the classification of
`data_cluster_count = (total_sectors - (reserved + tables * sectors_per_table
+ ceil(root_dir_entry_count * 32 / bytes_per_sector))) / sectors_per_cluster`
by the [0, 4085) ↦ Fat12, [4085, 65525) ↦ Fat16, [65525, ∞) ↦ Fat32
thresholds, and the stored last cluster number is that count plus one. -/
theorem biosParameterBlock_geometry (b : Nat → Nat) (bpb : BiosParameterBlock)
    (h : BiosParameterBlock.fromBootSector b = Except.ok bpb)
    (hb : ∀ i, b i < 256)
    (hfit : readLeU16 b 14 + b 16 * specResolvedSectorsPerAllocationTable b +
      specRootDirectorySectors b ≤ specResolvedTotalSectorCount b) :
    bpb.allocationTableKind = AllocationTableKind.new (specDataClusterCount b) ∧
    bpb.lastClusterNumber = specDataClusterCount b + 1 := by
  have hrsc : readLeU16 b 14 ≠ 0 := fromBootSector_ok_reserved b bpb h
  have hTlt : specResolvedTotalSectorCount b < U32_MOD := by
    unfold specResolvedTotalSectorCount
    split
    · have := readLeU16_lt b 19 hb
      unfold U32_MOD
      omega
    · exact readLeU32_lt b 32 hb
  have hIlt : readLeU16 b 14 + b 16 * specResolvedSectorsPerAllocationTable b +
      specRootDirectorySectors b < U32_MOD := lt_of_le_of_lt hfit hTlt
  have hkey : u32sub (specResolvedTotalSectorCount b)
      ((readLeU16 b 14 + b 16 * specResolvedSectorsPerAllocationTable b +
        specRootDirectorySectors b) % U32_MOD) = specDataSectorCount b := by
    rw [Nat.mod_eq_of_lt hIlt, u32sub_eq_sub _ _ hfit hTlt]
    rfl
  have hdcc : u32sub (specResolvedTotalSectorCount b)
      ((readLeU16 b 14 + b 16 * specResolvedSectorsPerAllocationTable b +
        specRootDirectorySectors b) % U32_MOD) / b 13 = specDataClusterCount b := by
    rw [hkey]
    rfl
  have hlastlt : specDataClusterCount b + 1 < U32_MOD := by
    have h1 : specDataSectorCount b + 1 ≤ specResolvedTotalSectorCount b := by
      unfold specDataSectorCount
      omega
    have h2 : specDataClusterCount b ≤ specDataSectorCount b := Nat.div_le_self _ _
    omega
  unfold BiosParameterBlock.fromBootSector at h
  simp only [ensureBpb, bind, Except.bind, pure, Except.pure] at h
  rw [show (if readLeU16 b 19 > 0 then readLeU16 b 19 else readLeU32 b 32) =
    specResolvedTotalSectorCount b from rfl] at h
  rw [show (if readLeU16 b 22 > 0 then readLeU16 b 22 else readLeU32 b 36) =
    specResolvedSectorsPerAllocationTable b from rfl] at h
  rw [show (readLeU16 b 17 * DIRECTORY_ENTRY_SIZE) ⌈/⌉ readLeU16 b 11 =
    specRootDirectorySectors b from rfl] at h
  rw [hdcc, Nat.mod_eq_of_lt hlastlt] at h
  repeat (any_goals (first | exact Except.noConfusion h | split at h))
  all_goals injection h with h2
  all_goals subst h2
  all_goals exact ⟨rfl, rfl⟩

/-- The FAT16 example boot sector of the repository's own test configuration
(`BiosParameterBlockConfig::fat16`): 512 bytes/sector, 1 sector/cluster,
1 reserved sector, 1 table of 128 sectors, 512 root entries, 32768 total
sectors, media 0xF0. -/
def fat16BootSector : Nat → Nat := fun i =>
  if i = 12 then 2
  else if i = 13 then 1
  else if i = 14 then 1
  else if i = 16 then 1
  else if i = 18 then 2
  else if i = 20 then 128
  else if i = 21 then 240
  else if i = 22 then 128
  else 0

theorem fat16BootSector_parses :
    BiosParameterBlock.fromBootSector fat16BootSector = Except.ok
      { allocationTableKind := .fat16
        activeAllocationTableIndex := 0
        allocationTableMirroringEnabled := true
        bytesPerSector := 512
        sectorsPerCluster := 1
        reservedSectorCount := 1
        fsInfoSectorIndex := none
        allocationTableCount := 1
        rootDirectoryEntryCount := 512
        rootDirectoryFileClusterNumber := none
        lastClusterNumber := 32608
        sectorsPerAllocationTable := 128 } := by
  rfl

theorem fat16BootSector_bytes : ∀ i, fat16BootSector i < 256 := by
  intro i
  unfold fat16BootSector
  split_ifs <;> norm_num

theorem biosParameterBlock_geometry_witness :
    (BiosParameterBlock.fromBootSector fat16BootSector).map
        (fun bpb => (bpb.allocationTableKind, bpb.lastClusterNumber)) =
      Except.ok (AllocationTableKind.new (specDataClusterCount fat16BootSector),
        specDataClusterCount fat16BootSector + 1) := by
  have hmain := biosParameterBlock_geometry fat16BootSector _ fat16BootSector_parses
    fat16BootSector_bytes (by decide)
  rw [fat16BootSector_parses]
  rw [Except.map]
  rw [← hmain.1, ← hmain.2]
  try rfl

theorem biosParameterBlock_nonFat32_defaults_witness :
    (BiosParameterBlock.fromBootSector fat16BootSector).map
        (fun bpb => (bpb.activeAllocationTableIndex, bpb.allocationTableMirroringEnabled,
          bpb.rootDirectoryFileClusterNumber, bpb.fsInfoBaseAddress)) =
      Except.ok (0, true, none, none) := by
  have hmain := biosParameterBlock_nonFat32_defaults fat16BootSector _ fat16BootSector_parses
    (Or.inr rfl)
  rw [fat16BootSector_parses]
  rw [Except.map]
  rw [← hmain.1, ← hmain.2.1, ← hmain.2.2.1, ← hmain.2.2.2]
  rfl

/-- A FAT12 boot sector whose single-sector allocation table is physically too
small: 512 bytes/sector, 1 sector/cluster, 1 reserved sector, 1 table of
1 sector (512 bytes), 16 root entries, 403 total sectors (so 400 data
clusters), media 0xF8. -/
def fat12SmallTableBootSector : Nat → Nat := fun i =>
  if i = 12 then 2
  else if i = 13 then 1
  else if i = 14 then 1
  else if i = 16 then 1
  else if i = 17 then 16
  else if i = 19 then 147
  else if i = 20 then 1
  else if i = 21 then 248
  else if i = 22 then 1
  else 0

/-- Specification side of claim C4 (spec §4.2 step 5): the number of packed
entries that physically fit in an allocation table of the given byte size,
counted at 1.5 bytes per entry (Fat12), 2 bytes per entry (Fat16) and
4 bytes per entry (Fat32). -/
def specAllocationTableEntryCapacity (k : AllocationTableKind) (tableBytes : Nat) : Nat :=
  match k with
  | .fat12 => tableBytes * 2 / 3
  | .fat16 => tableBytes / 2
  | .fat32 => tableBytes / 4

/-- C4 (code bug): `from_boot_sector` computes the Fat12 entry capacity as
`table_bytes * 3 / 2` instead of `table_bytes * 2 / 3`, so this boot sector —
whose 512-byte table holds only 341 packed 12-bit entries, fewer than its
400 data clusters plus the 2 reserved entries — is accepted instead of being
rejected with `AllocationTableTooSmall`. -/
theorem fromBootSector_accepts_too_small_fat12_table :
    (BiosParameterBlock.fromBootSector fat12SmallTableBootSector).map
        (fun bpb => (bpb.allocationTableKind, bpb.lastClusterNumber)) =
      Except.ok (AllocationTableKind.fat12, 401) ∧
    specAllocationTableEntryCapacity AllocationTableKind.fat12 (1 * 512) = 341 ∧
    341 < 400 + 2 := by
  refine ⟨by rfl, by rfl, by norm_num⟩

/-- `embedded_io::SeekFrom`. -/
inductive SeekFrom
  | start (n : Nat)
  | current (offset : Int)
  | fromEnd (offset : Int)
deriving DecidableEq, Repr

/-- `file::FileError`, specialised to the pure model (device and stream
errors cannot arise from a total allocation-table map). -/
inductive FileError
  | seekPositionBeyondLimits (address : Nat)
  | seekPositionImpossible (address : Int)
  | unexpectedAllocationTableEntryEncountered
deriving DecidableEq, Repr

/-- `file::File`: the cursor state together with the geometry the handle was
opened with.  The device reference and allocation table are passed separately
(the table as a total map from cluster number to its decoded entry, which is
what `read_entry` produces for it). -/
structure File where
  dataRegionBaseAddress : Nat
  bytesPerCluster : Nat
  firstClusterNumber : Nat
  fileSize : Nat
  currentPosition : Nat
  currentClusterNumber : Nat
  currentClusterOffset : Nat
deriving DecidableEq, Repr

/-- `File::current_address` (the `u32` cluster-number subtraction wraps, the
`u64` additions cannot overflow for in-range fields). -/
def File.currentAddress (f : File) : Nat :=
  f.dataRegionBaseAddress + u32sub f.currentClusterNumber 2 * f.bytesPerCluster +
    f.currentClusterOffset

/-- `File::resolve_max_read_size`: the buffer length is clamped into `u32`
(`unwrap_or(u32::MAX)`), and the two `u32` subtractions wrap as in a release
build. -/
def File.resolveMaxReadSize (f : File) (targetBufferLength : Nat) : Nat :=
  min (min (min targetBufferLength (U32_MOD - 1)) (u32sub f.fileSize f.currentPosition))
    (u32sub f.bytesPerCluster f.currentClusterOffset)

/-- `File::resolve_desired_position`: `SeekFrom` resolution with the
`i64 → u64` conversion failing as `SeekPositionImpossible` on a negative
result and the `u64 → u32` conversion failing as `SeekPositionBeyondLimits`. -/
def File.resolveDesiredPosition (f : File) (pos : SeekFrom) : Except FileError Nat :=
  match pos with
  | .start desiredAddress =>
      if desiredAddress < U32_MOD then .ok desiredAddress
      else .error (.seekPositionBeyondLimits desiredAddress)
  | .current offset =>
      let desiredAddress : Int := (f.currentPosition : Int) + offset
      if desiredAddress < 0 then .error (.seekPositionImpossible desiredAddress)
      else if desiredAddress < (U32_MOD : Int) then .ok desiredAddress.toNat
      else .error (.seekPositionBeyondLimits desiredAddress.toNat)
  | .fromEnd offset =>
      let desiredAddress : Int := (f.fileSize : Int) + offset
      if desiredAddress < 0 then .error (.seekPositionImpossible desiredAddress)
      else if desiredAddress < (U32_MOD : Int) then .ok desiredAddress.toNat
      else .error (.seekPositionBeyondLimits desiredAddress.toNat)

/-- The chain-following loop of the blocking `Seek for File` implementation
(`while new_cluster_offset > bytes_per_cluster`): note the strict `>`.
Fuel-based recursion; every call supplies fuel at least the iteration count,
which the loop (for a positive cluster size) cannot exceed. -/
def syncSeekWalk (tbl : Nat → AllocationTableEntry) (bytesPerCluster : Nat) :
    Nat → Nat → Int → Except FileError (Nat × Int)
  | 0, clusterNumber, clusterOffset => .ok (clusterNumber, clusterOffset)
  | fuel + 1, clusterNumber, clusterOffset =>
      if clusterOffset > (bytesPerCluster : Int) then
        match tbl clusterNumber with
        | .nextClusterNumber next =>
            syncSeekWalk tbl bytesPerCluster fuel next (clusterOffset - bytesPerCluster)
        | .endOfFile => .ok (clusterNumber, clusterOffset)
        | .free | .badSector | .reserved =>
            .error .unexpectedAllocationTableEntryEncountered
      else .ok (clusterNumber, clusterOffset)

/-- The chain-following loop of the suspension-based `AsyncSeek for File`
implementation (`while new_cluster_offset >= bytes_per_cluster`): note the
non-strict `>=`, the single textual difference from the blocking loop. -/
def asyncSeekWalk (tbl : Nat → AllocationTableEntry) (bytesPerCluster : Nat) :
    Nat → Nat → Int → Except FileError (Nat × Int)
  | 0, clusterNumber, clusterOffset => .ok (clusterNumber, clusterOffset)
  | fuel + 1, clusterNumber, clusterOffset =>
      if clusterOffset ≥ (bytesPerCluster : Int) then
        match tbl clusterNumber with
        | .nextClusterNumber next =>
            asyncSeekWalk tbl bytesPerCluster fuel next (clusterOffset - bytesPerCluster)
        | .endOfFile => .ok (clusterNumber, clusterOffset)
        | .free | .badSector | .reserved =>
            .error .unexpectedAllocationTableEntryEncountered
      else .ok (clusterNumber, clusterOffset)

/-- The blocking `File::seek`: resolve the target, early-return on a zero
relative change, update in place when the new offset stays inside the current
cluster, otherwise rewind on a backward seek and walk the chain forward with
the strict-`>` loop, clamping the final offset to the cluster size. -/
def File.seekSync (f : File) (tbl : Nat → AllocationTableEntry) (pos : SeekFrom) :
    Except FileError (Nat × File) :=
  match f.resolveDesiredPosition pos with
  | .error e => .error e
  | .ok desiredPosition =>
      let relativePositionChange : Int :=
        (desiredPosition : Int) - (f.currentPosition : Int)
      if relativePositionChange = 0 then .ok (f.currentPosition, f)
      else
        let newClusterNumber := f.currentClusterNumber
        let newClusterOffset : Int := (f.currentClusterOffset : Int) + relativePositionChange
        if 0 ≤ newClusterOffset ∧ newClusterOffset < (f.bytesPerCluster : Int) then
          .ok (desiredPosition,
            { f with
              currentClusterNumber := newClusterNumber
              currentClusterOffset := newClusterOffset.toNat
              currentPosition := desiredPosition })
        else
          let startCluster :=
            if relativePositionChange < 0 then f.firstClusterNumber else newClusterNumber
          let startOffset : Int :=
            if relativePositionChange < 0 then (desiredPosition : Int) else newClusterOffset
          match syncSeekWalk tbl f.bytesPerCluster (startOffset.toNat + 1)
              startCluster startOffset with
          | .error e => .error e
          | .ok (walkCluster, walkOffset) =>
              .ok (desiredPosition,
                { f with
                  currentClusterNumber := walkCluster
                  currentClusterOffset := (min walkOffset (f.bytesPerCluster : Int)).toNat
                  currentPosition := desiredPosition })

/-- The suspension-based `File::seek` (`AsyncSeek`): textually identical to
the blocking one except that its walk loop uses `>=`. -/
def File.seekAsync (f : File) (tbl : Nat → AllocationTableEntry) (pos : SeekFrom) :
    Except FileError (Nat × File) :=
  match f.resolveDesiredPosition pos with
  | .error e => .error e
  | .ok desiredPosition =>
      let relativePositionChange : Int :=
        (desiredPosition : Int) - (f.currentPosition : Int)
      if relativePositionChange = 0 then .ok (f.currentPosition, f)
      else
        let newClusterNumber := f.currentClusterNumber
        let newClusterOffset : Int := (f.currentClusterOffset : Int) + relativePositionChange
        if 0 ≤ newClusterOffset ∧ newClusterOffset < (f.bytesPerCluster : Int) then
          .ok (desiredPosition,
            { f with
              currentClusterNumber := newClusterNumber
              currentClusterOffset := newClusterOffset.toNat
              currentPosition := desiredPosition })
        else
          let startCluster :=
            if relativePositionChange < 0 then f.firstClusterNumber else newClusterNumber
          let startOffset : Int :=
            if relativePositionChange < 0 then (desiredPosition : Int) else newClusterOffset
          match asyncSeekWalk tbl f.bytesPerCluster (startOffset.toNat + 1)
              startCluster startOffset with
          | .error e => .error e
          | .ok (walkCluster, walkOffset) =>
              .ok (desiredPosition,
                { f with
                  currentClusterNumber := walkCluster
                  currentClusterOffset := (min walkOffset (f.bytesPerCluster : Int)).toNat
                  currentPosition := desiredPosition })

/-- The blocking `File::read` against the list-backed data stream: bound the
request by `resolve_max_read_size`, return `Ok(0)` for an empty bound,
otherwise read from the current address (the stream returns
`min requested (length - address)` bytes) and advance the cursor by seeking
`Current(actual_read_size)`. -/
def File.readSync (f : File) (tbl : Nat → AllocationTableEntry) (streamData : List Nat)
    (bufLen : Nat) : Except FileError (Nat × File) :=
  let targetReadSize := f.resolveMaxReadSize bufLen
  if targetReadSize = 0 then .ok (0, f)
  else
    let actualReadSize := min targetReadSize (streamData.length - f.currentAddress)
    match f.seekSync tbl (.current actualReadSize) with
    | .error e => .error e
    | .ok (_, f2) => .ok (actualReadSize, f2)

/-- Allocation table for the C1 failing input: cluster 2 chains to cluster 3,
which is the last cluster of the file. -/
def c1Table : Nat → AllocationTableEntry := fun c =>
  if c = 2 then .nextClusterNumber 3 else .endOfFile

/-- Cursor for the C1 failing input: a freshly opened 1024-byte file of two
512-byte clusters starting at cluster 2. -/
def c1File : File :=
  { dataRegionBaseAddress := 16384
    bytesPerCluster := 512
    firstClusterNumber := 2
    fileSize := 1024
    currentPosition := 0
    currentClusterNumber := 2
    currentClusterOffset := 0 }

/-- The cursor state the blocking seek leaves behind in the C1 failing run. -/
def c1SyncResultState : File :=
  { dataRegionBaseAddress := 16384
    bytesPerCluster := 512
    firstClusterNumber := 2
    fileSize := 1024
    currentPosition := 512
    currentClusterNumber := 2
    currentClusterOffset := 512 }

/-- The cursor state the suspension-based seek leaves behind in the C1
failing run. -/
def c1AsyncResultState : File :=
  { dataRegionBaseAddress := 16384
    bytesPerCluster := 512
    firstClusterNumber := 2
    fileSize := 1024
    currentPosition := 512
    currentClusterNumber := 3
    currentClusterOffset := 0 }

/-- C1 (code bug): seeking to exactly the cluster boundary (position 512) on
the same file state and allocation table leaves the blocking and the
suspension-based `File::seek` with different cursor states.  The blocking
walk (`>`) stops at cluster 2 with offset 512, after which a one-byte read is
bounded to 0 bytes; the suspension-based walk (`>=`) follows the chain to
cluster 3 with offset 0, after which the same read is bounded to 1 byte. -/
theorem file_seek_sync_async_diverge :
    File.seekSync c1File c1Table (SeekFrom.start 512) = Except.ok (512, c1SyncResultState) ∧
    File.seekAsync c1File c1Table (SeekFrom.start 512) = Except.ok (512, c1AsyncResultState) ∧
    c1SyncResultState ≠ c1AsyncResultState ∧
    File.resolveMaxReadSize c1SyncResultState 1 = 0 ∧
    File.resolveMaxReadSize c1AsyncResultState 1 = 1 := by
  refine ⟨rfl, rfl, by decide, by decide, by decide⟩

/-- Cursor for the C5 counterexample: position 10 in a 5-byte file (reachable
by seeking past the end, which the seek API allows). -/
def c5File : File :=
  { dataRegionBaseAddress := 0
    bytesPerCluster := 512
    firstClusterNumber := 2
    fileSize := 5
    currentPosition := 10
    currentClusterNumber := 2
    currentClusterOffset := 10 }

/-- C5 counterexample: with the cursor past the end of the file
(`current_position = 10 > file_size = 5`), the `u32` subtraction
`file_size - current_position` wraps, and a one-byte read returns `Ok(1)`
rather than the `Ok(0)` the claim demands for every state with
`current_position >= file_size`. -/
theorem file_read_beyond_size_not_zero :
    (File.readSync c5File (fun _ => AllocationTableEntry.endOfFile)
        (List.replicate 16 7) 1).map Prod.fst = Except.ok 1 ∧
    c5File.fileSize ≤ c5File.currentPosition ∧ (1 : Nat) ≠ 0 := by
  refine ⟨rfl, by decide, by decide⟩

/-- Definitional restatement of `File.seekSync`, used in place of `unfold`. -/
theorem File.seekSync_eq (f : File) (tbl : Nat → AllocationTableEntry) (pos : SeekFrom) :
    File.seekSync f tbl pos =
  (match f.resolveDesiredPosition pos with
  | .error e => .error e
  | .ok desiredPosition =>
      let relativePositionChange : Int :=
        (desiredPosition : Int) - (f.currentPosition : Int)
      if relativePositionChange = 0 then .ok (f.currentPosition, f)
      else
        let newClusterNumber := f.currentClusterNumber
        let newClusterOffset : Int := (f.currentClusterOffset : Int) + relativePositionChange
        if 0 ≤ newClusterOffset ∧ newClusterOffset < (f.bytesPerCluster : Int) then
          .ok (desiredPosition,
            { f with
              currentClusterNumber := newClusterNumber
              currentClusterOffset := newClusterOffset.toNat
              currentPosition := desiredPosition })
        else
          let startCluster :=
            if relativePositionChange < 0 then f.firstClusterNumber else newClusterNumber
          let startOffset : Int :=
            if relativePositionChange < 0 then (desiredPosition : Int) else newClusterOffset
          match syncSeekWalk tbl f.bytesPerCluster (startOffset.toNat + 1)
              startCluster startOffset with
          | .error e => .error e
          | .ok (walkCluster, walkOffset) =>
              .ok (desiredPosition,
                { f with
                  currentClusterNumber := walkCluster
                  currentClusterOffset := (min walkOffset (f.bytesPerCluster : Int)).toNat
                  currentPosition := desiredPosition })) := rfl

theorem resolveDesiredPosition_current_nat (f : File) (a : Nat)
    (hlt : f.currentPosition + a < U32_MOD) :
    f.resolveDesiredPosition (SeekFrom.current (a : Int)) =
      Except.ok (f.currentPosition + a) := by
  unfold File.resolveDesiredPosition
  simp only [if_neg (show ¬((f.currentPosition : Int) + (a : Int) < 0) by omega),
    if_pos (show (f.currentPosition : Int) + (a : Int) < (U32_MOD : Int) by exact_mod_cast hlt)]
  rw [← Nat.cast_add, Int.toNat_natCast]

theorem seekSync_current_le (f : File) (tbl : Nat → AllocationTableEntry) (a : Nat)
    (hlt : f.currentPosition + a < U32_MOD)
    (hin : f.currentClusterOffset + a ≤ f.bytesPerCluster) :
    ∃ f2, File.seekSync f tbl (SeekFrom.current (a : Int)) =
      Except.ok (f.currentPosition + a, f2) := by
  have h4 : ((f.currentPosition + a : Nat) : Int) - (f.currentPosition : Int) = (a : Int) := by
    push_cast
    ring
  rw [File.seekSync_eq]
  simp only [resolveDesiredPosition_current_nat f a hlt, h4]
  by_cases hz : a = 0
  · subst hz
    rw [if_pos (by norm_num)]
    exact ⟨f, by simp⟩
  · rw [if_neg (by exact_mod_cast hz)]
    by_cases hlt2 : f.currentClusterOffset + a < f.bytesPerCluster
    · rw [if_pos ⟨by positivity, by push_cast; exact_mod_cast hlt2⟩]
      exact ⟨_, rfl⟩
    · have heq : f.currentClusterOffset + a = f.bytesPerCluster := by omega
      have hna : ¬((a : Int) < 0) := by omega
      have hnin : ¬(0 ≤ (f.bytesPerCluster : Int) ∧
          (f.bytesPerCluster : Int) < (f.bytesPerCluster : Int)) := by
        omega
      have h5 : (f.currentClusterOffset : Int) + (a : Int) = (f.bytesPerCluster : Int) := by
        push_cast
        omega
      have hwalk : syncSeekWalk tbl f.bytesPerCluster (f.bytesPerCluster + 1)
          f.currentClusterNumber (f.bytesPerCluster : Int) =
          Except.ok (f.currentClusterNumber, (f.bytesPerCluster : Int)) := by
        simp only [syncSeekWalk]
        rw [if_neg (lt_irrefl _)]
      simp only [if_neg hnin, if_neg hna, h5, Int.toNat_natCast, hwalk]
      exact ⟨_, rfl⟩

set_option maxHeartbeats 1000000 in
/-- C5 (amended): for every well-formed cursor state whose position does not
exceed the file size, a single blocking `File::read` succeeds and reads
`n ≤ min(buffer length, file_size - current_position,
bytes_per_cluster - current_cluster_offset)` bytes; it reads 0 bytes whenever
`current_position = file_size` or the buffer is empty; and the read never
crosses a cluster boundary (`current_cluster_offset + n` stays within the
cluster).  (As stated, with `current_position >= file_size`, the claim is
false: see the counterexample, where the `u32` subtraction wraps.) -/
theorem file_read_bounds (f : File) (tbl : Nat → AllocationTableEntry)
    (streamData : List Nat) (bufLen : Nat)
    (hpos : f.currentPosition ≤ f.fileSize)
    (hoff : f.currentClusterOffset ≤ f.bytesPerCluster)
    (hsz : f.fileSize < U32_MOD)
    (hbpc : f.bytesPerCluster < U32_MOD) :
    ∃ n f2, File.readSync f tbl streamData bufLen = Except.ok (n, f2) ∧
      n ≤ bufLen ∧
      n ≤ f.fileSize - f.currentPosition ∧
      n ≤ f.bytesPerCluster - f.currentClusterOffset ∧
      f.currentClusterOffset + n ≤ f.bytesPerCluster ∧
      ((f.currentPosition = f.fileSize ∨ bufLen = 0) → n = 0) := by
  have hsub1 : u32sub f.fileSize f.currentPosition =
      f.fileSize - f.currentPosition := u32sub_eq_sub _ _ hpos hsz
  have hsub2 : u32sub f.bytesPerCluster f.currentClusterOffset =
      f.bytesPerCluster - f.currentClusterOffset := u32sub_eq_sub _ _ hoff hbpc
  have hmax : f.resolveMaxReadSize bufLen =
      min (min (min bufLen (U32_MOD - 1)) (f.fileSize - f.currentPosition))
        (f.bytesPerCluster - f.currentClusterOffset) := by
    unfold File.resolveMaxReadSize
    rw [hsub1, hsub2]
  unfold File.readSync
  rw [hmax]
  by_cases h0 : min (min (min bufLen (U32_MOD - 1)) (f.fileSize - f.currentPosition))
      (f.bytesPerCluster - f.currentClusterOffset) = 0
  · rw [if_pos h0]
    exact ⟨0, f, rfl, by omega, by omega, by omega, by omega, fun _ => rfl⟩
  · rw [if_neg h0]
    have h1 : f.currentPosition +
        min (min (min bufLen (U32_MOD - 1)) (f.fileSize - f.currentPosition))
          (f.bytesPerCluster - f.currentClusterOffset)
          ⊓ (streamData.length - f.currentAddress) < U32_MOD := by
      omega
    have h2 : f.currentClusterOffset +
        min (min (min bufLen (U32_MOD - 1)) (f.fileSize - f.currentPosition))
          (f.bytesPerCluster - f.currentClusterOffset)
          ⊓ (streamData.length - f.currentAddress) ≤ f.bytesPerCluster := by
      omega
    obtain ⟨f2, hseek⟩ := seekSync_current_le f tbl _ h1 h2
    simp only [hseek]
    refine ⟨_, f2, rfl, by omega, by omega, by omega, by omega, ?_⟩
    rintro (hp | hp) <;> omega

theorem file_read_bounds_witness :
    ∃ n f2, File.readSync c1File c1Table (List.replicate 8 3) 4 = Except.ok (n, f2) ∧
      n ≤ 4 ∧
      n ≤ c1File.fileSize - c1File.currentPosition ∧
      n ≤ c1File.bytesPerCluster - c1File.currentClusterOffset ∧
      c1File.currentClusterOffset + n ≤ c1File.bytesPerCluster ∧
      ((c1File.currentPosition = c1File.fileSize ∨ 4 = 0) → n = 0) :=
  file_read_bounds c1File c1Table (List.replicate 8 3) 4 (by decide) (by decide) (by decide)
    (by decide)

/-! ## Directory entries (`directory_entry.rs` and its submodules)

A 32-byte directory record is a `List Nat` of byte values; missing positions
read as the zero bytes of the Rust fixed-size array. -/

/-- `utils::read_le_u16` on a record held as a list. -/
def listReadLeU16 (data : List Nat) (offset : Nat) : Nat :=
  data.getD offset 0 + 256 * data.getD (offset + 1) 0

/-- `utils::read_le_u32` on a record held as a list. -/
def listReadLeU32 (data : List Nat) (offset : Nat) : Nat :=
  data.getD offset 0 + 256 * data.getD (offset + 1) 0 + 65536 * data.getD (offset + 2) 0 +
    16777216 * data.getD (offset + 3) 0

/-- `utils::write_le_u16` on a record held as a list: stores the two
little-endian bytes of the `u16` truncation of `v` (storing `v % 256` and
`v / 256 % 256` is exactly that truncation). -/
def listWriteLeU16 (data : List Nat) (offset v : Nat) : List Nat :=
  (data.set offset (v % 256)).set (offset + 1) (v / 256 % 256)

/-- `utils::write_le_u32` on a record held as a list. -/
def listWriteLeU32 (data : List Nat) (offset v : Nat) : List Nat :=
  (((data.set offset (v % 256)).set (offset + 1) (v / 256 % 256)).set
      (offset + 2) (v / 65536 % 256)).set (offset + 3) (v / 16777216 % 256)

/-- `copy_from_slice` into `data[offset .. offset + vals.length]`. -/
def listSetRange (data : List Nat) (offset : Nat) (vals : List Nat) : List Nat :=
  data.take offset ++ vals ++ data.drop (offset + vals.length)

/-- `file_name::short::error::ShortFileNameError` (`file_name/short/error.rs`):
the error reported by the validating short-name constructor; `character` is
the offending encoded byte. -/
inductive ShortFileNameError
  | characterInvalid (character offset : Nat)
deriving DecidableEq, Repr

/-- `directory_entry::short_name::error::ShortNameDirectoryEntryError`. -/
inductive ShortNameDirectoryEntryError
  | firstClusterNumberInvalid
  | fileSizeInvalid
  | nameInvalid (e : ShortFileNameError)
deriving DecidableEq, Repr

/-- `directory_entry::long_name::error::LongNameDirectoryEntryError`. -/
inductive LongNameDirectoryEntryError
  | entryNumberInvalid
  | nameCharacterInvalid (character offset : Nat)
deriving DecidableEq, Repr

/-- `directory_entry::error::DirectoryEntryError`. -/
inductive DirectoryEntryError
  | shortNameEntryInvalid (e : ShortNameDirectoryEntryError)
  | longNameEntryInvalid (e : LongNameDirectoryEntryError)
deriving DecidableEq, Repr

/-- `file_name::ShortFileName`: the 11 stored name bytes. -/
structure ShortFileName where
  bytes : List Nat
deriving DecidableEq, Repr

/-- `ShortFileName::is_valid_encoded_character` (`file_name/short.rs`): the
byte values allowed to appear in a stored short name. -/
def isValidEncodedCharacter (c : Nat) : Bool :=
  !(decide (c ≤ 0x1F) || decide (c = 0x22) ||
    (decide (0x2A ≤ c) && decide (c ≤ 0x2C)) ||
    decide (c = 0x2E) || decide (c = 0x2F) ||
    (decide (0x3A ≤ c) && decide (c ≤ 0x3F)) ||
    (decide (0x5B ≤ c) && decide (c ≤ 0x5D)) ||
    decide (c = 0x7C))

/-- Scan of the stored name bytes for the first invalid encoded byte,
returning it with its offset. -/
def findInvalidShortNameByte : List Nat → Nat → Option (Nat × Nat)
  | [], _ => none
  | c :: rest, i =>
    if isValidEncodedCharacter c then findInvalidShortNameByte rest (i + 1) else some (c, i)

/-- The validating `ShortFileName::new` called by
`ShortNameDirectoryEntry::from_bytes`. The snapshot's `file_name/short.rs`
predates this fallible constructor (only its error module,
`file_name/short/error.rs`, is present), so the definition models it from the
specification: every stored byte must lie in the valid encoded-character set
of `ShortFileName::is_valid_encoded_character` — the escape-accepting form,
which admits a literal `0xE5` first byte — and the first offending byte is
reported together with its offset. -/
def ShortFileName.new (bytes : List Nat) : Except ShortFileNameError ShortFileName :=
  match findInvalidShortNameByte bytes 0 with
  | some (c, i) => .error (.characterInvalid c i)
  | none => .ok ⟨bytes⟩

/-- `u8::rotate_right(1)` on a byte value. -/
def u8RotateRight1 (x : Nat) : Nat := x / 2 + x % 2 * 128

/-- `ShortFileName::checksum`: the rotate-right-then-add fold over the 11 name
bytes, in wrapping `u8` arithmetic. -/
def ShortFileName.checksum (n : ShortFileName) : Nat :=
  n.bytes.foldl (fun acc c => (u8RotateRight1 acc + c) % 256) 0

/-- `directory_entry::SHORT_NAME_CHARACTER_COUNT`. -/
def SHORT_NAME_CHARACTER_COUNT : Nat := 11

/-- `directory_entry::ShortNameDirectoryEntry` (attributes kept as the raw
byte, as `DirectoryEntryAttributes::from_bits_retain` does). -/
structure ShortNameDirectoryEntry where
  name : ShortFileName
  attributes : Nat
  firstClusterNumber : Nat
  fileSize : Nat
deriving DecidableEq, Repr

/-- The leading-byte escape applied by `ShortNameDirectoryEntry::from_bytes`
to the copied name bytes: a stored first byte `0x05` stands for a literal
`0xE5` first character. -/
def substituteLeading05 (nameBytes : List Nat) : List Nat :=
  if nameBytes.getD 0 0 = 0x05 then nameBytes.set 0 0xE5 else nameBytes

/-- `ShortNameDirectoryEntry::from_bytes`. -/
def ShortNameDirectoryEntry.fromBytes (data : List Nat) :
    Except ShortNameDirectoryEntryError ShortNameDirectoryEntry :=
  match ShortFileName.new (substituteLeading05 (data.take SHORT_NAME_CHARACTER_COUNT)) with
  | .error e => .error (.nameInvalid e)
  | .ok name =>
    .ok { name := name
          attributes := data.getD 11 0
          firstClusterNumber := Nat.lor (listReadLeU16 data 20 <<< 16) (listReadLeU16 data 26)
          fileSize := listReadLeU32 data 28 }

/-- `ShortNameDirectoryEntry::write` into a 32-byte output record. -/
def ShortNameDirectoryEntry.write (e : ShortNameDirectoryEntry) (bytes : List Nat) :
    List Nat :=
  let bytes := listSetRange bytes 0 e.name.bytes
  let bytes := if bytes.getD 0 0 = 0xE5 then bytes.set 0 0x05 else bytes
  let bytes := bytes.set 11 e.attributes
  let bytes := listWriteLeU16 bytes 20 (e.firstClusterNumber >>> 16)
  let bytes := listWriteLeU16 bytes 26 e.firstClusterNumber
  listWriteLeU32 bytes 28 e.fileSize

/-- `directory_entry::LONG_NAME_CHARACTERS_PER_ENTRY`. -/
def LONG_NAME_CHARACTERS_PER_ENTRY : Nat := 13

/-- `file_name::LONG_NAME_MAX_LENGTH`. -/
def LONG_NAME_MAX_LENGTH : Nat := 255

/-- `directory_entry::LONG_NAME_MAX_ENTRY_COUNT` (= 20). -/
def LONG_NAME_MAX_ENTRY_COUNT : Nat :=
  LONG_NAME_MAX_LENGTH ⌈/⌉ LONG_NAME_CHARACTERS_PER_ENTRY

/-- `encoding::Ucs2Character::from_u16`: any 16-bit value outside the
surrogate range. UCS-2 code units are kept as plain `Nat`s. -/
def ucs2FromU16 (v : Nat) : Option Nat :=
  if 0xD800 ≤ v ∧ v ≤ 0xDFFF then none else some v

/-- `directory_entry::LongNameDirectoryEntry`. -/
structure LongNameDirectoryEntry where
  orderByte : Nat
  ucs2Characters : List Nat
  shortNameChecksum : Nat
deriving DecidableEq, Repr

/-- The byte index of UCS-2 character `i` inside a long-name record
(the three strides of `LongNameDirectoryEntry::from_bytes`). -/
def longNameCharByteIndex (i : Nat) : Nat :=
  if i < 5 then i * 2 + 1 else if i < 11 then (i - 5) * 2 + 14 else (i - 11) * 2 + 28

/-- The character loop of `LongNameDirectoryEntry::from_bytes`: reads `n`
UCS-2 code units starting at character index `i`, failing on the first
surrogate value. -/
def readLongNameChars (data : List Nat) :
    Nat → Nat → Except LongNameDirectoryEntryError (List Nat)
  | _, 0 => .ok []
  | i, n + 1 =>
    let codepoint := listReadLeU16 data (longNameCharByteIndex i)
    match ucs2FromU16 codepoint with
    | none => .error (.nameCharacterInvalid codepoint i)
    | some c =>
      match readLongNameChars data (i + 1) n with
      | .error e => .error e
      | .ok rest => .ok (c :: rest)

/-- `LongNameDirectoryEntry::from_bytes`. -/
def LongNameDirectoryEntry.fromBytes (data : List Nat) :
    Except LongNameDirectoryEntryError LongNameDirectoryEntry :=
  if 1 ≤ Nat.land (data.getD 0 0) 0x3F ∧
      Nat.land (data.getD 0 0) 0x3F ≤ LONG_NAME_MAX_ENTRY_COUNT then
    match readLongNameChars data 0 LONG_NAME_CHARACTERS_PER_ENTRY with
    | .error e => .error e
    | .ok chars => .ok ⟨data.getD 0 0, chars, data.getD 13 0⟩
  else .error .entryNumberInvalid

/-- `LongNameDirectoryEntry::is_last_entry`. -/
def LongNameDirectoryEntry.isLastEntry (e : LongNameDirectoryEntry) : Bool :=
  decide (0 < Nat.land e.orderByte 0x40)

/-- `LongNameDirectoryEntry::entry_number`. -/
def LongNameDirectoryEntry.entryNumber (e : LongNameDirectoryEntry) : Nat :=
  Nat.land e.orderByte 0x3F

/-- `directory_entry::FreeDirectoryEntry`. The `free` module file is absent
from the snapshot; the two variants and their meaning are fixed by
`DirectoryEntry::from_bytes` and the directory-item iterator. -/
inductive FreeDirectoryEntry
  | allFollowing
  | currentOnly
deriving DecidableEq, Repr

/-- `directory_entry::DirectoryEntry`. -/
inductive DirectoryEntry
  | free (e : FreeDirectoryEntry)
  | shortName (e : ShortNameDirectoryEntry)
  | longName (e : LongNameDirectoryEntry)
deriving DecidableEq, Repr

/-- `DirectoryEntry::from_bytes`: the dispatch over byte 0 and the attribute
byte. The long-name test is the source's `entry_bytes[11] & 0x0F > 0`. -/
def DirectoryEntry.fromBytes (entryBytes : List Nat) :
    Except DirectoryEntryError DirectoryEntry :=
  if entryBytes.getD 0 0 = 0x00 then .ok (.free .allFollowing)
  else if entryBytes.getD 0 0 = 0xE5 then .ok (.free .currentOnly)
  else if 0 < Nat.land (entryBytes.getD 11 0) 0x0F then
    match LongNameDirectoryEntry.fromBytes entryBytes with
    | .ok e => .ok (.longName e)
    | .error e => .error (.longNameEntryInvalid e)
  else
    match ShortNameDirectoryEntry.fromBytes entryBytes with
    | .ok e => .ok (.shortName e)
    | .error e => .error (.shortNameEntryInvalid e)

/-- A 32-byte record whose attribute byte has only the read-only bit set
(`0x01`): its low nibble is not all-set, yet its first byte is neither free
marker. Order byte `0x41`, all name strides zero. -/
def c3Record : List Nat :=
  0x41 :: (List.replicate 10 0 ++ 0x01 :: List.replicate 20 0)

/-- C3: the record dispatch disagrees with the claim. The claim requires a
LongName decode exactly when the attribute byte's low nibble equals `0x0F`
and a ShortName decode in every other case; `DirectoryEntry::from_bytes`
instead tests `entry_bytes[11] & 0x0F > 0`, so a record whose attribute low
nibble is `0x01` — a plain read-only short-name entry — is decoded as a
LongName entry rather than attempted as a ShortName entry. -/
theorem directoryEntry_dispatch_low_nibble_bug :
    Nat.land (c3Record.getD 11 0) 0x0F = 0x01 ∧
    DirectoryEntry.fromBytes c3Record =
      Except.ok (DirectoryEntry.longName ⟨0x41, List.replicate 13 0, 0⟩) :=
  ⟨rfl, rfl⟩

theorem getD_take_of_lt (l : List Nat) (i n : Nat) (h : i < n) :
    (l.take n).getD i 0 = l.getD i 0 := by
  rw [List.getD_eq_getElem?_getD, List.getElem?_take, if_pos h, ← List.getD_eq_getElem?_getD]

theorem getD_set_self (l : List Nat) (i a : Nat) (h : i < l.length) :
    (l.set i a).getD i 0 = a := by
  rw [List.getD_eq_getElem?_getD, List.getElem?_set_eq_of_lt a h, Option.getD_some]

theorem getD_set_of_ne (l : List Nat) (i j a : Nat) (h : i ≠ j) :
    (l.set i a).getD j 0 = l.getD j 0 := by
  rw [List.getD_eq_getElem?_getD, List.getElem?_set_ne h, ← List.getD_eq_getElem?_getD]

theorem getD_append_left (l m : List Nat) (i : Nat) (h : i < l.length) :
    (l ++ m).getD i 0 = l.getD i 0 := by
  rw [List.getD_eq_getElem?_getD, List.getElem?_append, if_pos h,
    ← List.getD_eq_getElem?_getD]

theorem take_set_of_le (l : List Nat) (i n a : Nat) (h : n ≤ i) :
    (l.set i a).take n = l.take n := by
  apply List.ext_getElem?
  intro m
  rw [List.getElem?_take, List.getElem?_take]
  by_cases hm : m < n
  · rw [if_pos hm, if_pos hm, List.getElem?_set_ne (by omega)]
  · rw [if_neg hm, if_neg hm]

theorem take_set_of_lt (l : List Nat) (i n a : Nat) (hi : i < l.length) (hn : i < n) :
    (l.set i a).take n = (l.take n).set i a := by
  apply List.ext_getElem?
  intro m
  by_cases hm : m = i
  · subst hm
    rw [List.getElem?_take, if_pos hn, List.getElem?_set_eq_of_lt a hi,
      List.getElem?_set_eq_of_lt a (by rw [List.length_take]; omega)]
  · simp only [List.getElem?_take, List.getElem?_set_ne (fun hc => hm hc.symm)]

theorem set_getD_self (l : List Nat) (i : Nat) (h : i < l.length) :
    l.set i (l.getD i 0) = l := by
  apply List.ext_getElem?
  intro m
  by_cases hm : m = i
  · subst hm
    rw [List.getElem?_set_eq_of_lt _ h, getD_of_lt l m h, List.getElem?_eq_getElem h]
  · rw [List.getElem?_set_ne (fun hc => hm hc.symm)]

/-- Take of the first eleven output bytes of `ShortNameDirectoryEntry::write`:
all later stores land at offsets 11 and beyond, so the prefix is the name
bytes with the leading escape applied. -/
theorem write_take_eleven (e : ShortNameDirectoryEntry) (buf : List Nat)
    (hlen : e.name.bytes.length = 11) :
    (e.write buf).take 11 =
      (if e.name.bytes.getD 0 0 = 0xE5 then e.name.bytes.set 0 0x05 else e.name.bytes) := by
  unfold ShortNameDirectoryEntry.write listWriteLeU32 listWriteLeU16 listSetRange
  rw [take_set_of_le _ _ _ _ (by norm_num), take_set_of_le _ _ _ _ (by norm_num),
    take_set_of_le _ _ _ _ (by norm_num), take_set_of_le _ _ _ _ (by norm_num),
    take_set_of_le _ _ _ _ (by norm_num), take_set_of_le _ _ _ _ (by norm_num),
    take_set_of_le _ _ _ _ (by norm_num), take_set_of_le _ _ _ _ (by norm_num),
    take_set_of_le _ _ _ _ (by norm_num)]
  have hb1 : (buf.take 0 ++ e.name.bytes ++ buf.drop (0 + e.name.bytes.length)).getD 0 0 =
      e.name.bytes.getD 0 0 := by
    rw [List.take_zero, List.nil_append, getD_append_left _ _ _ (by omega)]
  have hb1t : (buf.take 0 ++ e.name.bytes ++ buf.drop (0 + e.name.bytes.length)).take 11 =
      e.name.bytes := by
    rw [List.take_zero, List.nil_append, List.take_left' hlen]
  by_cases hE5 : e.name.bytes.getD 0 0 = 0xE5
  · rw [if_pos (hb1.trans hE5), if_pos hE5,
      take_set_of_lt _ _ _ _ (by rw [List.length_append, List.length_append]; omega)
        (by norm_num),
      hb1t]
  · rw [if_neg (fun hc => hE5 (hb1.symm.trans hc)), if_neg hE5, hb1t]

/-- C9: the leading-byte escape round-trips. A stored first name byte of
`0x05` decodes to the literal character `0xE5`; every record that the
dispatch decodes as a short-name entry re-encodes to its original first
eleven bytes, the leading `0x05` included, because `write` turns a leading
`0xE5` name character back into `0x05` and no other byte is altered. -/
theorem shortName_escape_roundtrip (data buf : List Nat) (e : ShortNameDirectoryEntry)
    (hlen : data.length = 32)
    (h : DirectoryEntry.fromBytes data = Except.ok (DirectoryEntry.shortName e)) :
    e.name.bytes.getD 0 0 = (if data.getD 0 0 = 0x05 then 0xE5 else data.getD 0 0) ∧
    (∀ i, 1 ≤ i → i < 11 → e.name.bytes.getD i 0 = data.getD i 0) ∧
    (e.write buf).take 11 = data.take 11 := by
  unfold DirectoryEntry.fromBytes at h
  by_cases h0 : data.getD 0 0 = 0
  · rw [if_pos h0] at h
    exact absurd h (by simp)
  rw [if_neg h0] at h
  by_cases hE5 : data.getD 0 0 = 0xE5
  · rw [if_pos hE5] at h
    exact absurd h (by simp)
  rw [if_neg hE5] at h
  by_cases hnib : 0 < Nat.land (data.getD 11 0) 0x0F
  · rw [if_pos hnib] at h
    cases hl : LongNameDirectoryEntry.fromBytes data with
    | error el => rw [hl] at h; exact absurd h (by simp)
    | ok el => rw [hl] at h; exact absurd h (by simp)
  rw [if_neg hnib] at h
  cases hs : ShortNameDirectoryEntry.fromBytes data with
  | error es => rw [hs] at h; exact absurd h (by simp)
  | ok e2 =>
  rw [hs] at h
  have he : e2 = e := by simpa using h
  subst he
  unfold ShortNameDirectoryEntry.fromBytes at hs
  cases hn : ShortFileName.new (substituteLeading05 (data.take SHORT_NAME_CHARACTER_COUNT)) with
  | error en =>
    simp only [hn] at hs
    exact Except.noConfusion hs
  | ok name =>
  simp only [hn, Except.ok.injEq] at hs
  unfold ShortFileName.new at hn
  cases hf : findInvalidShortNameByte (substituteLeading05 (data.take SHORT_NAME_CHARACTER_COUNT)) 0 with
  | some p =>
    obtain ⟨c, i⟩ := p
    simp only [hf] at hn
    exact Except.noConfusion hn
  | none =>
  simp only [hf, Except.ok.injEq] at hn
  have hbytes : e2.name.bytes = substituteLeading05 (data.take 11) := by
    rw [← hs, ← hn]
    rfl
  have htlen : (data.take 11).length = 11 := by
    rw [List.length_take, hlen]
    decide
  have ht0 : (data.take 11).getD 0 0 = data.getD 0 0 := getD_take_of_lt data 0 11 (by norm_num)
  by_cases h05 : data.getD 0 0 = 0x05
  · have hsub : substituteLeading05 (data.take 11) = (data.take 11).set 0 0xE5 := by
      unfold substituteLeading05
      rw [if_pos (ht0.trans h05)]
    have hname0 : e2.name.bytes.getD 0 0 = 0xE5 := by
      rw [hbytes, hsub, getD_set_self _ _ _ (by omega)]
    refine ⟨by rw [hname0, if_pos h05], ?_, ?_⟩
    · intro i h1 h11
      rw [hbytes, hsub, getD_set_of_ne _ _ _ _ (by omega), getD_take_of_lt _ _ _ h11]
    · rw [write_take_eleven e2 buf (by rw [hbytes, hsub, List.length_set, htlen]),
        if_pos hname0, hbytes, hsub, List.set_set,
        show (0x05 : Nat) = (data.take 11).getD 0 0 from (ht0.trans h05).symm]
      exact set_getD_self _ _ (by omega)
  · have hsub : substituteLeading05 (data.take 11) = data.take 11 := by
      unfold substituteLeading05
      rw [if_neg (fun hc => h05 (ht0.symm.trans hc))]
    have hname0 : e2.name.bytes.getD 0 0 = data.getD 0 0 := by
      rw [hbytes, hsub, ht0]
    refine ⟨by rw [hname0, if_neg h05], ?_, ?_⟩
    · intro i h1 h11
      rw [hbytes, hsub, getD_take_of_lt _ _ _ h11]
    · rw [write_take_eleven e2 buf (by rw [hbytes, hsub, htlen]),
        if_neg (fun hc => hE5 (hname0.symm.trans hc)), hbytes, hsub]

/-- A stored record for the name `\x05OOBAR  TXT` (leading escape byte),
attribute `0x10`, first cluster `0x12345678`, size `0x9ABCDEF1`. -/
def c9Record : List Nat :=
  [0x05, 0x4F, 0x4F, 0x42, 0x41, 0x52, 0x20, 0x20, 0x54, 0x58, 0x54, 0x10,
   0, 0, 0, 0, 0, 0, 0, 0, 0x34, 0x12, 0, 0, 0, 0, 0x78, 0x56, 0xF1, 0xDE, 0xBC, 0x9A]

/-- The decoded form of `c9Record`: the leading `0x05` has become a literal
`0xE5` name character. -/
def c9Entry : ShortNameDirectoryEntry :=
  ⟨⟨[0xE5, 0x4F, 0x4F, 0x42, 0x41, 0x52, 0x20, 0x20, 0x54, 0x58, 0x54]⟩,
    0x10, 0x12345678, 0x9ABCDEF1⟩

theorem shortName_escape_roundtrip_witness :
    DirectoryEntry.fromBytes c9Record = Except.ok (DirectoryEntry.shortName c9Entry) ∧
    (c9Entry.name.bytes.getD 0 0 =
        (if c9Record.getD 0 0 = 0x05 then 0xE5 else c9Record.getD 0 0) ∧
      (∀ i, 1 ≤ i → i < 11 → c9Entry.name.bytes.getD i 0 = c9Record.getD i 0) ∧
      (c9Entry.write (List.replicate 32 0)).take 11 = c9Record.take 11) :=
  ⟨rfl, shortName_escape_roundtrip c9Record (List.replicate 32 0) c9Entry rfl rfl⟩

/-! ## Directory item reconstruction (`directory_item.rs`, `builder.rs`,
`iterator.rs`) -/

/-- `directory_item::error::DirectoryItemError`. -/
inductive DirectoryItemError
  | longNameCorrupted
  | longNameEntryNumberWrong
  | longNameEmpty
  | longNameFirstEntryInvalid
  | longNameOrphaned
  | longNameShortNameChecksumInconsistent
  | longNameTooLong
  | shortNameChecksumMismatch
deriving DecidableEq, Repr

/-- The `ensure!` macro specialised to `DirectoryItemError`. -/
def ensureItem (cond : Prop) [Decidable cond] (e : DirectoryItemError) :
    Except DirectoryItemError Unit :=
  if cond then .ok () else .error e

/-- `directory_item::builder::LongNameState`. -/
structure LongNameState where
  entryCount : Nat
  shortNameChecksum : Nat
deriving DecidableEq, Repr

/-- `directory_item::DirectoryItemBuilder`: the accumulated long-name buffer
holds `LONG_NAME_MAX_LENGTH` UCS-2 code units, null-initialised. -/
structure DirectoryItemBuilder where
  currentEntryIndex : Nat
  longName : List Nat
  longNameState : Option LongNameState
deriving DecidableEq, Repr

/-- `DirectoryItemBuilder::new`. -/
def DirectoryItemBuilder.new : DirectoryItemBuilder :=
  ⟨0, List.replicate LONG_NAME_MAX_LENGTH 0, none⟩

/-- The character-copy loop of `DirectoryItemBuilder::add_long_name_entry`:
walks the entry's 13 UCS-2 code units, tracking whether a null terminator was
seen, and writes into the long-name buffer at
`long_name_offset + character_index`. A null is allowed only in the first
processed entry (the chain's last stride) and not at its first character;
after a null only `0xFFFF` padding may follow (and is not copied). -/
def copyLongNameChars (currentEntryIndex longNameOffset : Nat) :
    List Nat → Nat → Bool → List Nat → Except DirectoryItemError (List Nat)
  | [], _, _, longName => .ok longName
  | c :: rest, characterIndex, nullEncountered, longName =>
    if c = 0 then
      if currentEntryIndex ≠ 0 then .error .longNameCorrupted
      else if characterIndex = 0 then .error .longNameEmpty
      else if longNameOffset + characterIndex < LONG_NAME_MAX_LENGTH then
        copyLongNameChars currentEntryIndex longNameOffset rest (characterIndex + 1) true
          (longName.set (longNameOffset + characterIndex) c)
      else .error .longNameTooLong
    else if nullEncountered then
      if c = 0xFFFF then
        copyLongNameChars currentEntryIndex longNameOffset rest (characterIndex + 1)
          nullEncountered longName
      else .error .longNameCorrupted
    else if longNameOffset + characterIndex < LONG_NAME_MAX_LENGTH then
      copyLongNameChars currentEntryIndex longNameOffset rest (characterIndex + 1)
        nullEncountered (longName.set (longNameOffset + characterIndex) c)
    else .error .longNameTooLong

/-- `DirectoryItemBuilder::add_long_name_entry`. The `u8` subtraction in the
entry-number check cannot underflow on the paths the iterator exercises
(`current_entry_index` never exceeds the recorded `entry_count` while the
state is set), so it is the truncated `Nat` subtraction here. -/
def DirectoryItemBuilder.addLongNameEntry (b : DirectoryItemBuilder)
    (entry : LongNameDirectoryEntry) : Except DirectoryItemError DirectoryItemBuilder := do
  if b.currentEntryIndex = 0 then
    ensureItem (entry.isLastEntry = true) .longNameFirstEntryInvalid
  else
    ensureItem (entry.isLastEntry = false) .longNameOrphaned
  let longNameState :=
    b.longNameState.getD ⟨entry.entryNumber, entry.shortNameChecksum⟩
  ensureItem (entry.entryNumber = longNameState.entryCount - b.currentEntryIndex)
    .longNameEntryNumberWrong
  ensureItem (entry.shortNameChecksum = longNameState.shortNameChecksum)
    .longNameShortNameChecksumInconsistent
  let longName ← copyLongNameChars b.currentEntryIndex
    ((entry.entryNumber - 1) * LONG_NAME_CHARACTERS_PER_ENTRY) entry.ucs2Characters 0
    false b.longName
  pure ⟨b.currentEntryIndex + 1, longName, some longNameState⟩

/-- `directory_item::DirectoryItem`: the short entry together with the
optional long name (kept as the raw UCS-2 buffer). -/
structure DirectoryItem where
  shortDirectoryEntry : ShortNameDirectoryEntry
  longName : Option (List Nat)
deriving DecidableEq, Repr

/-- Conversion of the builder's accumulated buffer into the item's optional
long name (`self.long_name.into()` in `DirectoryItemBuilder::build`). The
impl is absent from the snapshot; modelled from the specification — a
completed chain yields `Some(long_name)` — and the iterator's
short-entry-only test, whose item carries no long name: a buffer whose first
code unit is still null (`LongFileName::is_empty`) means no long name. -/
def longNameOfBuffer (buf : List Nat) : Option (List Nat) :=
  if buf.getD 0 0 = 0 then none else some buf

/-- `DirectoryItemBuilder::build`. -/
def DirectoryItemBuilder.build (b : DirectoryItemBuilder)
    (entry : ShortNameDirectoryEntry) : Except DirectoryItemError DirectoryItem := do
  match b.longNameState with
  | some longNameState =>
    ensureItem (b.currentEntryIndex = longNameState.entryCount) .longNameOrphaned
    ensureItem (entry.name.checksum = longNameState.shortNameChecksum)
      .shortNameChecksumMismatch
    pure ⟨entry, longNameOfBuffer b.longName⟩
  | none => pure ⟨entry, longNameOfBuffer b.longName⟩

/-- C7: the long-name chain validation of directory-item reconstruction.
A first long-name entry must carry the is-last flag
(`LongNameFirstEntryInvalid` otherwise) and, when accepted, fixes the chain
length and checksum in the builder state; a subsequent entry must have
sequence number `chain_length - entries_seen` (`LongNameEntryNumberWrong`
otherwise) and the first entry's checksum
(`LongNameShortNameChecksumInconsistent` otherwise); building with the
terminating short entry fails with `ShortNameChecksumMismatch` when the short
name's computed checksum differs from the chain's, and otherwise emits the
item carrying the reconstructed long name. -/
theorem directoryItemBuilder_chain_validation (b : DirectoryItemBuilder)
    (entry : LongNameDirectoryEntry) (short : ShortNameDirectoryEntry)
    (st : LongNameState) :
    (b.currentEntryIndex = 0 → entry.isLastEntry = false →
      b.addLongNameEntry entry = .error .longNameFirstEntryInvalid) ∧
    (b.currentEntryIndex = 0 → b.longNameState = none → entry.isLastEntry = true →
      ∀ buf, copyLongNameChars 0 ((entry.entryNumber - 1) * LONG_NAME_CHARACTERS_PER_ENTRY)
          entry.ucs2Characters 0 false b.longName = .ok buf →
        b.addLongNameEntry entry =
          .ok ⟨1, buf, some ⟨entry.entryNumber, entry.shortNameChecksum⟩⟩) ∧
    (b.longNameState = some st → b.currentEntryIndex ≠ 0 → entry.isLastEntry = false →
      entry.entryNumber ≠ st.entryCount - b.currentEntryIndex →
      b.addLongNameEntry entry = .error .longNameEntryNumberWrong) ∧
    (b.longNameState = some st → b.currentEntryIndex ≠ 0 → entry.isLastEntry = false →
      entry.entryNumber = st.entryCount - b.currentEntryIndex →
      entry.shortNameChecksum ≠ st.shortNameChecksum →
      b.addLongNameEntry entry = .error .longNameShortNameChecksumInconsistent) ∧
    (b.longNameState = some st → b.currentEntryIndex = st.entryCount →
      short.name.checksum ≠ st.shortNameChecksum →
      b.build short = .error .shortNameChecksumMismatch) ∧
    (b.longNameState = some st → b.currentEntryIndex = st.entryCount →
      short.name.checksum = st.shortNameChecksum → b.longName.getD 0 0 ≠ 0 →
      b.build short = .ok ⟨short, some b.longName⟩) := by
  refine ⟨?_, ?_, ?_, ?_, ?_, ?_⟩
  · intro h0 hlast
    unfold DirectoryItemBuilder.addLongNameEntry
    rw [if_pos h0]
    simp [ensureItem, hlast, bind, Except.bind]
  · intro h0 hstate hlast buf hcopy
    unfold DirectoryItemBuilder.addLongNameEntry
    rw [if_pos h0]
    simp only [ensureItem, hlast, hstate, h0, if_pos, Option.getD_none, if_true,
      Nat.sub_zero, bind, Except.bind, pure, Except.pure, if_pos rfl, hcopy]
  · intro hstate h0 hlast hnum
    unfold DirectoryItemBuilder.addLongNameEntry
    rw [if_neg h0]
    simp only [ensureItem, hlast, hstate, Option.getD_some, bind, Except.bind,
      eq_self_iff_true, if_true, if_pos rfl, if_neg hnum]
  · intro hstate h0 hlast hnum hsum
    unfold DirectoryItemBuilder.addLongNameEntry
    rw [if_neg h0]
    simp only [ensureItem, hlast, hstate, Option.getD_some, bind, Except.bind,
      eq_self_iff_true, if_true, if_pos rfl, if_pos hnum, if_neg hsum]
  · intro hstate hidx hsum
    unfold DirectoryItemBuilder.build
    rw [hstate]
    simp only [ensureItem, bind, Except.bind, if_pos hidx, if_neg hsum]
  · intro hstate hidx hsum hne
    unfold DirectoryItemBuilder.build
    rw [hstate]
    simp only [ensureItem, bind, Except.bind, if_pos hidx, if_pos hsum, pure, Except.pure,
      longNameOfBuffer, if_neg hne]

/-- The stored bytes of the short name `FOOBAR  TXT`. -/
def c7NameBytes : List Nat :=
  [0x46, 0x4F, 0x4F, 0x42, 0x41, 0x52, 0x20, 0x20, 0x54, 0x58, 0x54]

/-- A long-name entry with sequence number 2 and the is-last flag clear. -/
def c7EntryNotLast : LongNameDirectoryEntry :=
  ⟨0x02, List.replicate 13 0x41, 0x12⟩

/-- A short entry named `FOOBAR  TXT`. -/
def c7Short : ShortNameDirectoryEntry :=
  ⟨⟨c7NameBytes⟩, 0, 2, 0⟩

/-- A chain state of length 1 whose checksum is `FOOBAR  TXT`'s. -/
def c7State : LongNameState :=
  ⟨1, ShortFileName.checksum ⟨c7NameBytes⟩⟩

/-- A builder that has consumed the single entry of such a chain. -/
def c7Builder : DirectoryItemBuilder :=
  ⟨1, 0x46 :: List.replicate 254 0, some c7State⟩

theorem directoryItemBuilder_chain_validation_witness :
    DirectoryItemBuilder.new.addLongNameEntry c7EntryNotLast =
      Except.error DirectoryItemError.longNameFirstEntryInvalid ∧
    c7Builder.build c7Short = Except.ok ⟨c7Short, some c7Builder.longName⟩ :=
  ⟨(directoryItemBuilder_chain_validation DirectoryItemBuilder.new c7EntryNotLast c7Short
      ⟨1, 0⟩).1 rfl rfl,
   (directoryItemBuilder_chain_validation c7Builder c7EntryNotLast c7Short c7State).2.2.2.2.2
      rfl rfl rfl (by decide)⟩

/-- `directory_item::iteration_error::DirectoryItemIterationError` (the device
and stream error payloads are irrelevant to iteration order and elided). -/
inductive DirectoryItemIterationError
  | allocationTableEntryTypeUnexpected
  | deviceError
  | entryInvalid (e : DirectoryEntryError)
  | itemError (e : DirectoryItemError)
  | streamEndReached
  | streamError
deriving DecidableEq, Repr

/-- The loop of `DirectoryItemIterator::next` over the remaining decoded
directory entries. The underlying entry iterator is the list (`peek` is the
head, `advance` drops it and always succeeds); the returned number counts the
`advance` calls performed, i.e. how many entries the call consumed.

Per the source: a decode error is returned after advancing past it;
end-of-entries mid-chain is `LongNameOrphaned` without an advance; a `Free`
entry is advanced past first and then, mid-chain, reported as
`LongNameOrphaned`; a rejected long-name entry is advanced past unless the
builder error is `LongNameOrphaned` (`should_skip_advancing_iterator`); a
short entry that fails `build` is returned without the advance that only
follows a successful build. -/
def DirectoryItemIterator.next :
    List (Except DirectoryEntryError DirectoryEntry) → DirectoryItemBuilder → Bool →
    Option (Except DirectoryItemIterationError DirectoryItem) × Nat
  | [], _, isFirstEntry =>
    (if isFirstEntry then none else some (.error (.itemError .longNameOrphaned)), 0)
  | .error e :: _, _, _ => (some (.error (.entryInvalid e)), 1)
  | .ok (.free freeEntry) :: rest, builder, isFirstEntry =>
    if isFirstEntry = false then (some (.error (.itemError .longNameOrphaned)), 1)
    else
      match freeEntry with
      | .currentOnly =>
        let r := DirectoryItemIterator.next rest builder true
        (r.1, r.2 + 1)
      | .allFollowing => (none, 1)
  | .ok (.longName longNameEntry) :: rest, builder, _ =>
    match builder.addLongNameEntry longNameEntry with
    | .ok builder2 =>
      let r := DirectoryItemIterator.next rest builder2 false
      (r.1, r.2 + 1)
    | .error directoryItemError =>
      (some (.error (.itemError directoryItemError)),
        if directoryItemError = .longNameOrphaned then 0 else 1)
  | .ok (.shortName shortNameEntry) :: _, builder, _ =>
    match builder.build shortNameEntry with
    | .ok item => (some (.ok item), 1)
    | .error e => (some (.error (.itemError e)), 0)

/-- A valid single-entry long-name chain (order byte `0x41`: last entry,
number 1) whose checksum byte is `0x12`, followed by a short entry whose
name checksum is not `0x12`. -/
def c8Entries : List (Except DirectoryEntryError DirectoryEntry) :=
  [.ok (.longName ⟨0x41, 0x41 :: (0 :: List.replicate 11 0xFFFF), 0x12⟩),
   .ok (.shortName ⟨⟨c7NameBytes⟩, 0, 2, 0⟩)]

/-- C8 (counterexample): an error other than `LongNameOrphaned` after which
the entry iterator is NOT advanced past the offending entry. The pending
chain's short entry fails `build` with `ShortNameChecksumMismatch`, yet the
iterator consumed only the long-name entry: the short entry (position 1 of
the 2 entries) is still the current one, contradicting the claimed policy of
advancing for every error variant except `LongNameOrphaned`. -/
theorem directoryItemIterator_mismatch_without_advance :
    DirectoryItemIterator.next c8Entries DirectoryItemBuilder.new true =
      (some (.error (.itemError .shortNameChecksumMismatch)), 1) ∧
    c8Entries.length = 2 ∧
    DirectoryItemError.shortNameChecksumMismatch ≠ DirectoryItemError.longNameOrphaned :=
  ⟨rfl, rfl, by decide⟩

theorem copyLongNameChars_error_cases (idx off : Nat) :
    ∀ cs i nul buf e, copyLongNameChars idx off cs i nul buf = .error e →
      e = .longNameCorrupted ∨ e = .longNameEmpty ∨ e = .longNameTooLong := by
  intro cs
  induction cs with
  | nil =>
    intro i nul buf e h
    exact absurd h (by simp [copyLongNameChars])
  | cons c rest ih =>
    intro i nul buf e h
    simp only [copyLongNameChars] at h
    repeat (any_goals (first | exact Except.noConfusion h | split at h))
    all_goals try (injection h with h2; subst h2; simp)
    all_goals exact ih _ _ _ _ h

theorem addLongNameEntry_not_mismatch (b : DirectoryItemBuilder)
    (entry : LongNameDirectoryEntry) (e : DirectoryItemError)
    (h : b.addLongNameEntry entry = .error e) :
    e ≠ .shortNameChecksumMismatch := by
  unfold DirectoryItemBuilder.addLongNameEntry at h
  simp only [bind, Except.bind, ensureItem, pure, Except.pure] at h
  repeat (any_goals (first | exact Except.noConfusion h | split at h))
  all_goals try (injection h with h2; subst h2; simp)
  all_goals
    rename_i err heq
    first
      | (rcases copyLongNameChars_error_cases _ _ _ _ _ _ _ heq with h3 | h3 | h3 <;>
          subst h3 <;> simp)
      | (split at heq <;>
          first
            | exact Except.noConfusion heq
            | (injection heq with h2
               subst h2
               simp))

theorem build_error_cases (b : DirectoryItemBuilder) (s : ShortNameDirectoryEntry)
    (e : DirectoryItemError) (h : b.build s = .error e) :
    e = .longNameOrphaned ∨ e = .shortNameChecksumMismatch := by
  unfold DirectoryItemBuilder.build at h
  simp only [bind, Except.bind, ensureItem, pure, Except.pure] at h
  repeat (any_goals (first | exact Except.noConfusion h | split at h))
  all_goals
    injection h with h2
    subst h2
    rename_i err heq
    split at heq <;>
      first
        | exact Except.noConfusion heq
        | (injection heq with h3
           subst h3
           simp)

/-- C8 (amended): the advance policy actually implemented by
`DirectoryItemIterator::next`. For a call consuming `n` entries:
a decode error is consumed (the offending entry sits at position `n - 1`);
a `ShortNameChecksumMismatch` is NOT consumed (the offending short entry is
still current, at position `n`); every other item error except
`LongNameOrphaned` comes from a long-name entry that was consumed; and
`LongNameOrphaned` arises at end-of-entries (nothing to consume), at an
unconsumed long-name entry, at an unconsumed short entry whose chain was
truncated, or at a free entry that WAS consumed. -/
theorem directoryItemIterator_advance_policy
    (entries : List (Except DirectoryEntryError DirectoryEntry))
    (builder : DirectoryItemBuilder) (isFirstEntry : Bool)
    (o : Option (Except DirectoryItemIterationError DirectoryItem)) (n : Nat)
    (h : DirectoryItemIterator.next entries builder isFirstEntry = (o, n)) :
    n ≤ entries.length ∧
    (∀ e, o = some (.error (.entryInvalid e)) →
      1 ≤ n ∧ entries[n - 1]? = some (.error e)) ∧
    (o = some (.error (.itemError .shortNameChecksumMismatch)) →
      ∃ s, entries[n]? = some (.ok (.shortName s))) ∧
    (∀ err, o = some (.error (.itemError err)) → err ≠ .longNameOrphaned →
      err ≠ .shortNameChecksumMismatch →
      1 ≤ n ∧ ∃ l, entries[n - 1]? = some (.ok (.longName l))) ∧
    (o = some (.error (.itemError .longNameOrphaned)) →
      entries[n]? = none ∨
      (∃ l, entries[n]? = some (.ok (.longName l))) ∨
      (∃ s, entries[n]? = some (.ok (.shortName s))) ∨
      (1 ≤ n ∧ ∃ f, entries[n - 1]? = some (.ok (.free f)))) := by
  induction entries generalizing builder isFirstEntry o n with
  | nil =>
    simp only [DirectoryItemIterator.next] at h
    injection h with h1 h2
    subst h1
    subst h2
    cases isFirstEntry with
    | false =>
      rw [if_neg (by simp)]
      refine ⟨Nat.le_refl 0, ?_, ?_, ?_, ?_⟩
      · intro e he
        exact absurd he (by simp)
      · intro he
        exact absurd he (by simp)
      · intro err he hno hnm
        have : err = DirectoryItemError.longNameOrphaned := by simpa using he.symm
        exact absurd this hno
      · intro _
        exact Or.inl rfl
    | true =>
      refine ⟨Nat.le_refl 0, ?_, ?_, ?_, ?_⟩
      · intro e he
        exact absurd he (by simp)
      · intro he
        exact absurd he (by simp)
      · intro err he hno hnm
        exact absurd he (by simp)
      · intro he
        exact absurd he (by simp)
  | cons head rest ih =>
    cases head with
    | error e0 =>
      simp only [DirectoryItemIterator.next] at h
      injection h with h1 h2
      subst h1
      subst h2
      refine ⟨by simp, ?_, ?_, ?_, ?_⟩
      · intro e he
        have : e0 = e := by simpa using he
        subst this
        exact ⟨Nat.le_refl 1, by simp⟩
      · intro he
        exact absurd he (by simp)
      · intro err he _ _
        exact absurd he (by simp)
      · intro he
        exact absurd he (by simp)
    | ok entry =>
      cases entry with
      | free f =>
        simp only [DirectoryItemIterator.next] at h
        by_cases hf : isFirstEntry = false
        · rw [if_pos hf] at h
          injection h with h1 h2
          subst h1
          subst h2
          refine ⟨by simp, ?_, ?_, ?_, ?_⟩
          · intro e he
            exact absurd he (by simp)
          · intro he
            exact absurd he (by simp)
          · intro err he hno _
            have : err = DirectoryItemError.longNameOrphaned := by simpa using he.symm
            exact absurd this hno
          · intro _
            exact Or.inr (Or.inr (Or.inr ⟨Nat.le_refl 1, f, by simp⟩))
        · rw [if_neg hf] at h
          cases f with
          | currentOnly =>
            simp only at h
            rcases hrec : DirectoryItemIterator.next rest builder true with ⟨r1, n1⟩
            rw [hrec] at h
            injection h with h1 h2
            subst h1
            subst h2
            obtain ⟨ihlen, ih2, ih3, ih4, ih5⟩ := ih builder true r1 n1 hrec
            refine ⟨by simpa using Nat.succ_le_succ ihlen, ?_, ?_, ?_, ?_⟩
            · intro e he
              obtain ⟨h1le, hget⟩ := ih2 e he
              refine ⟨by omega, ?_⟩
              rw [show n1 + 1 - 1 = (n1 - 1) + 1 by omega, List.getElem?_cons_succ]
              exact hget
            · intro he
              obtain ⟨s, hs⟩ := ih3 he
              exact ⟨s, by rw [List.getElem?_cons_succ]; exact hs⟩
            · intro err he hno hnm
              obtain ⟨h1le, l, hl⟩ := ih4 err he hno hnm
              refine ⟨by omega, l, ?_⟩
              rw [show n1 + 1 - 1 = (n1 - 1) + 1 by omega, List.getElem?_cons_succ]
              exact hl
            · intro he
              rcases ih5 he with h1 | ⟨l, hl⟩ | ⟨s, hs⟩ | ⟨h1le, f2, hf2⟩
              · exact Or.inl (by rw [List.getElem?_cons_succ]; exact h1)
              · exact Or.inr (Or.inl ⟨l, by rw [List.getElem?_cons_succ]; exact hl⟩)
              · exact Or.inr (Or.inr (Or.inl ⟨s, by rw [List.getElem?_cons_succ]; exact hs⟩))
              · refine Or.inr (Or.inr (Or.inr ⟨by omega, f2, ?_⟩))
                rw [show n1 + 1 - 1 = (n1 - 1) + 1 by omega, List.getElem?_cons_succ]
                exact hf2
          | allFollowing =>
            simp only at h
            injection h with h1 h2
            subst h1
            subst h2
            refine ⟨by simp, ?_, ?_, ?_, ?_⟩
            · intro e he
              exact absurd he (by simp)
            · intro he
              exact absurd he (by simp)
            · intro err he hno hnm
              exact absurd he (by simp)
            · intro he
              exact absurd he (by simp)
      | longName l0 =>
        simp only [DirectoryItemIterator.next] at h
        cases hadd : builder.addLongNameEntry l0 with
        | ok b2 =>
          rw [hadd] at h
          simp only at h
          rcases hrec : DirectoryItemIterator.next rest b2 false with ⟨r1, n1⟩
          rw [hrec] at h
          injection h with h1 h2
          subst h1
          subst h2
          obtain ⟨ihlen, ih2, ih3, ih4, ih5⟩ := ih b2 false r1 n1 hrec
          refine ⟨by simpa using Nat.succ_le_succ ihlen, ?_, ?_, ?_, ?_⟩
          · intro e he
            obtain ⟨h1le, hget⟩ := ih2 e he
            refine ⟨by omega, ?_⟩
            rw [show n1 + 1 - 1 = (n1 - 1) + 1 by omega, List.getElem?_cons_succ]
            exact hget
          · intro he
            obtain ⟨s, hs⟩ := ih3 he
            exact ⟨s, by rw [List.getElem?_cons_succ]; exact hs⟩
          · intro err he hno hnm
            obtain ⟨h1le, l, hl⟩ := ih4 err he hno hnm
            refine ⟨by omega, l, ?_⟩
            rw [show n1 + 1 - 1 = (n1 - 1) + 1 by omega, List.getElem?_cons_succ]
            exact hl
          · intro he
            rcases ih5 he with h1 | ⟨l, hl⟩ | ⟨s, hs⟩ | ⟨h1le, f2, hf2⟩
            · exact Or.inl (by rw [List.getElem?_cons_succ]; exact h1)
            · exact Or.inr (Or.inl ⟨l, by rw [List.getElem?_cons_succ]; exact hl⟩)
            · exact Or.inr (Or.inr (Or.inl ⟨s, by rw [List.getElem?_cons_succ]; exact hs⟩))
            · refine Or.inr (Or.inr (Or.inr ⟨by omega, f2, ?_⟩))
              rw [show n1 + 1 - 1 = (n1 - 1) + 1 by omega, List.getElem?_cons_succ]
              exact hf2
        | error err0 =>
          rw [hadd] at h
          simp only at h
          by_cases horph : err0 = DirectoryItemError.longNameOrphaned
          · subst horph
            rw [if_pos rfl] at h
            injection h with h1 h2
            subst h1
            subst h2
            refine ⟨by simp, ?_, ?_, ?_, ?_⟩
            · intro e he
              exact absurd he (by simp)
            · intro he
              exact absurd he (by simp)
            · intro err he hno _
              have : err = DirectoryItemError.longNameOrphaned := by simpa using he.symm
              exact absurd this hno
            · intro _
              exact Or.inr (Or.inl ⟨l0, by simp⟩)
          · rw [if_neg horph] at h
            injection h with h1 h2
            subst h1
            subst h2
            refine ⟨by simp, ?_, ?_, ?_, ?_⟩
            · intro e he
              exact absurd he (by simp)
            · intro he
              have : err0 = DirectoryItemError.shortNameChecksumMismatch := by
                simpa using he
              exact absurd this (addLongNameEntry_not_mismatch builder l0 err0 hadd)
            · intro err he _ _
              have : err0 = err := by simpa using he
              subst this
              exact ⟨Nat.le_refl 1, l0, by simp⟩
            · intro he
              have : err0 = DirectoryItemError.longNameOrphaned := by simpa using he
              exact absurd this horph
      | shortName s0 =>
        simp only [DirectoryItemIterator.next] at h
        cases hb : builder.build s0 with
        | ok item =>
          rw [hb] at h
          simp only at h
          injection h with h1 h2
          subst h1
          subst h2
          refine ⟨by simp, ?_, ?_, ?_, ?_⟩
          · intro e he
            exact absurd he (by simp)
          · intro he
            exact absurd he (by simp)
          · intro err he hno hnm
            exact absurd he (by simp)
          · intro he
            exact absurd he (by simp)
        | error err0 =>
          rw [hb] at h
          simp only at h
          injection h with h1 h2
          subst h1
          subst h2
          refine ⟨by simp, ?_, ?_, ?_, ?_⟩
          · intro e he
            exact absurd he (by simp)
          · intro _
            exact ⟨s0, by simp⟩
          · intro err he hno hnm
            have : err0 = err := by simpa using he
            subst this
            rcases build_error_cases builder s0 err0 hb with h1 | h1
            · exact absurd h1 hno
            · exact absurd h1 hnm
          · intro _
            exact Or.inr (Or.inr (Or.inl ⟨s0, by simp⟩))

theorem directoryItemIterator_advance_policy_witness :
    ∃ s, c8Entries[(1 : Nat)]? = some (Except.ok (DirectoryEntry.shortName s)) :=
  (directoryItemIterator_advance_policy c8Entries DirectoryItemBuilder.new true
      (some (.error (.itemError .shortNameChecksumMismatch))) 1 rfl).2.2.1 rfl
